import Mathlib

/-!
# BaseTween (src/tweens/tween/BaseTween.js)

A shallow embedding of the `BaseTween` class: the fields set by its constructor, the
listener table it inherits from its event emitter, and its methods as functions from
the receiver to an `Outcome` (receiver after the call, calls made on collaborators in
order, and the value returned or the error raised).

Conventions of the embedding.
* Handlers, listeners and the owning manager are collaborators outside the class:
  a call made on one of them is recorded in the trace and its body is not run.
* A method that raises keeps the field writes it made before raising.
* Arguments have their documented types: a callback is a function, `params` an
  optional array, `scope` an optional value, `type` any string.
* The numeric fields of a unit are exact rationals: the class stores and returns them and
  does no arithmetic on them.

For the loop accounting of the specification the file also holds a stepping function
modelled from its section 4.4, since the stepping code of the subclass is not among the
sources; it counts time in exact rationals.
-/

/-- Modelled from the spec: the state constants of `./const` (`TWEEN_CONST`), a module that is
not among the sources. The spec lists the states of a unit as PENDING, ACTIVE, LOOP_DELAY,
COMPLETE_DELAY and DESTROYED, pairwise different. -/
inductive TweenState where
  | PENDING
  | ACTIVE
  | LOOP_DELAY
  | COMPLETE_DELAY
  | DESTROYED
  deriving DecidableEq, Repr

/-- The event names of `../events` read by `BaseTween`. The module is not among the sources,
so its three values are a parameter of every method that reads one. -/
structure TweenEvents where
  TWEEN_ACTIVE : String
  TWEEN_PAUSE : String
  TWEEN_RESUME : String
  deriving DecidableEq, Repr

/-- JavaScript values that cross the interface of the class: primitives, references to
functions and to other objects, and `this`, the reference to the receiver. -/
inductive JsVal where
  | undefined
  | null
  | bool (b : Bool)
  | num (n : Int)
  | str (s : String)
  | obj (id : Nat)
  | func (id : Nat)
  | this
  deriving DecidableEq, Repr

/-- Errors a method can raise. Reading a property of `null` raises a `TypeError`. -/
inductive JsError where
  | TypeError
  deriving DecidableEq, Repr

/-- The record `{ func, scope, params }` stored in a callback slot (line 449). -/
structure TweenCallback where
  func : Nat
  scope : JsVal
  params : List JsVal
  deriving DecidableEq, Repr

/-- The object held in `this.callbacks`: own keys in insertion order, each with a value that
is `null` (`none`) or a callback record. -/
abbrev TweenCallbacks := List (String × Option TweenCallback)

/-- Own keys of a callbacks object, in insertion order. -/
def TweenCallbacks.keys (t : TweenCallbacks) : List String :=
  t.map Prod.fst

/-- The test `callbacks.hasOwnProperty(type)`. -/
def TweenCallbacks.hasOwnProperty (t : TweenCallbacks) (type : String) : Bool :=
  t.any (fun p => p.1 == type)

/-- The property read `callbacks[type]`: the record stored there, `none` when the value is
`null` or the key is absent (`undefined`); both are falsy for `dispatchEvent`. -/
def TweenCallbacks.get (t : TweenCallbacks) (type : String) : Option TweenCallback :=
  match t.find? (fun p => p.1 == type) with
  | some p => p.2
  | none => none

/-- The assignment `callbacks[type] = v`: overwrites the value of an existing key in place,
adds the key at the end otherwise. -/
def TweenCallbacks.set (t : TweenCallbacks) (type : String) (v : Option TweenCallback) :
    TweenCallbacks :=
  if t.hasOwnProperty type then
    t.map (fun p => if p.1 == type then (p.1, v) else p)
  else
    t ++ [(type, v)]

/-- One subscription on the inherited event emitter: `on(event, fn, context)` or, with
`once` set, `once(event, fn, context)`. -/
structure Listener where
  event : String
  fn : Nat
  context : JsVal
  once : Bool
  deriving DecidableEq, Repr

/-- Calls made on collaborators, as they appear in a trace. -/
inductive Effect where
  | emit (event : String) (args : List JsVal)
  | deliver (fn : Nat) (context : JsVal) (args : List JsVal)
  | apply (func : Nat) (scope : JsVal) (params : List JsVal)
  | parentMakeActive (parent : Nat) (arg : JsVal)
  deriving DecidableEq, Repr

/-- Is the effect a call of `emit` on the event channel. -/
def Effect.isEmit : Effect → Bool
  | .emit _ _ => true
  | _ => false

/-- Is the effect the delivery of an event to a subscribed listener. -/
def Effect.isDeliver : Effect → Bool
  | .deliver _ _ _ => true
  | _ => false

/-- Is the effect the invocation of a registered handler (`callback.func.apply`). -/
def Effect.isApply : Effect → Bool
  | .apply _ _ _ => true
  | _ => false

/-- The fields of a `BaseTween` (constructor, lines 29-269) and the listener table of the
emitter it extends. `parent` and `callbacks` are `none` when they hold `null`. -/
structure BaseTween where
  parent : Option Nat
  data : List Nat
  totalData : Nat
  useFrames : Bool
  timeScale : Rat
  loop : Int
  loopDelay : Rat
  loopCounter : Int
  completeDelay : Rat
  countdown : Rat
  state : TweenState
  paused : Bool
  elapsed : Rat
  totalElapsed : Rat
  duration : Rat
  progress : Rat
  totalDuration : Rat
  totalProgress : Rat
  callbacks : Option TweenCallbacks
  persist : Bool
  listeners : List Listener
  deriving DecidableEq, Repr

/-- Value returned by a method that returns normally. -/
inductive Ret where
  | this
  | undefined
  deriving DecidableEq, Repr

/-- What a method call leaves behind: the receiver after the call, the calls it made on
collaborators in order, and the value it returned or the error it raised. -/
structure Outcome where
  self : BaseTween
  trace : List Effect
  result : Except JsError Ret

/-- The emit calls of a trace. -/
def emissions (tr : List Effect) : List Effect :=
  tr.filter Effect.isEmit

/-- The handler invocations of a trace. -/
def handlerCalls (tr : List Effect) : List Effect :=
  tr.filter Effect.isApply

/-- The listener deliveries of a trace. -/
def deliveries (tr : List Effect) : List Effect :=
  tr.filter Effect.isDeliver

/-- The static list `BaseTween.TYPES` (lines 473-484). -/
def BaseTween.TYPES : List String :=
  ["onActive", "onComplete", "onLoop", "onPause", "onRepeat", "onResume", "onStart", "onStop",
    "onUpdate", "onYoyo"]

/-- The object literal assigned to `this.callbacks` by the constructor (lines 242-253). -/
def BaseTween.initialCallbacks : TweenCallbacks :=
  [("onActive", none), ("onComplete", none), ("onLoop", none), ("onPause", none),
    ("onRepeat", none), ("onResume", none), ("onStart", none), ("onStop", none),
    ("onUpdate", none), ("onYoyo", none)]

/-- The constructor `BaseTween (parent, data)`; `data = none` is the omitted argument. -/
def BaseTween.construct (parent : Option Nat) (data : Option (List Nat)) : BaseTween :=
  let data := data.getD []
  { parent := parent
    data := data
    totalData := data.length
    useFrames := false
    timeScale := 1
    loop := 0
    loopDelay := 0
    loopCounter := 0
    completeDelay := 0
    countdown := 0
    state := TweenState.PENDING
    paused := false
    elapsed := 0
    totalElapsed := 0
    duration := 0
    progress := 0
    totalDuration := 0
    totalProgress := 0
    callbacks := some BaseTween.initialCallbacks
    persist := false
    listeners := [] }

/-- The inherited `emit(event, ...args)` of the event channel: the call is recorded, every
listener subscribed to `event` receives `args` in subscription order, and the subscriptions
made with `once` for that event are dropped. -/
def BaseTween.emit (u : BaseTween) (event : String) (args : List JsVal) :
    BaseTween × List Effect :=
  ({ u with listeners := u.listeners.filter (fun l => !(l.event == event && l.once)) },
    Effect.emit event args ::
      (u.listeners.filter (fun l => l.event == event)).map
        (fun l => Effect.deliver l.fn l.context args))

/-- The inherited `removeAllListeners()` of the event channel: drops every subscription and
calls nothing. -/
def BaseTween.removeAllListeners (u : BaseTween) : BaseTween :=
  { u with listeners := [] }

/-- Method `setTimeScale(value)` (lines 284-289). -/
def BaseTween.setTimeScale (u : BaseTween) (value : Rat) : Outcome :=
  { self := { u with timeScale := value }, trace := [], result := .ok Ret.this }

/-- Method `getTimeScale()` (lines 300-303). -/
def BaseTween.getTimeScale (u : BaseTween) : Rat :=
  u.timeScale

/-- Method `isPlaying()` (lines 315-318). -/
def BaseTween.isPlaying (u : BaseTween) : Bool :=
  !u.paused && u.state == TweenState.ACTIVE

/-- Method `isPaused()` (lines 328-331). -/
def BaseTween.isPaused (u : BaseTween) : Bool :=
  u.paused

/-- Method `dispatchEvent(event, callback)` (lines 403-411); `callback = none` is `null` or
`undefined`. -/
def BaseTween.dispatchEvent (u : BaseTween) (event : String) (callback : Option TweenCallback) :
    Outcome :=
  let e := u.emit event [JsVal.this]
  match callback with
  | some cb =>
    { self := e.1, trace := e.2 ++ [Effect.apply cb.func cb.scope cb.params],
      result := .ok Ret.undefined }
  | none => { self := e.1, trace := e.2, result := .ok Ret.undefined }

/-- Method `pause()` (lines 344-354). The argument `this.callbacks.onPause` is evaluated after
the write to `paused` and before `dispatchEvent` is entered, so on a `null` table the call
raises with `paused` already set and nothing emitted. -/
def BaseTween.pause (ev : TweenEvents) (u : BaseTween) : Outcome :=
  if !u.paused then
    let u1 := { u with paused := true }
    match u1.callbacks with
    | none => { self := u1, trace := [], result := .error JsError.TypeError }
    | some t =>
      let r := u1.dispatchEvent ev.TWEEN_PAUSE (t.get "onPause")
      { self := r.self, trace := r.trace, result := .ok Ret.this }
  else
    { self := u, trace := [], result := .ok Ret.this }

/-- Method `resume()` (lines 367-377). -/
def BaseTween.resume (ev : TweenEvents) (u : BaseTween) : Outcome :=
  if u.paused then
    let u1 := { u with paused := false }
    match u1.callbacks with
    | none => { self := u1, trace := [], result := .error JsError.TypeError }
    | some t =>
      let r := u1.dispatchEvent ev.TWEEN_RESUME (t.get "onResume")
      { self := r.self, trace := r.trace, result := .ok Ret.this }
  else
    { self := u, trace := [], result := .ok Ret.this }

/-- Method `makeActive()` (lines 387-392): the manager is called first with the unit as
argument, then the active transition is dispatched. -/
def BaseTween.makeActive (ev : TweenEvents) (u : BaseTween) : Outcome :=
  match u.parent with
  | none => { self := u, trace := [], result := .error JsError.TypeError }
  | some p =>
    match u.callbacks with
    | none =>
      { self := u, trace := [Effect.parentMakeActive p JsVal.this],
        result := .error JsError.TypeError }
    | some t =>
      let r := u.dispatchEvent ev.TWEEN_ACTIVE (t.get "onActive")
      { self := r.self, trace := Effect.parentMakeActive p JsVal.this :: r.trace,
        result := .ok Ret.undefined }

/-- Method `setCallback(type, callback, params, scope)` (lines 442-453); `params = none` and
`scope = JsVal.undefined` are the omitted arguments. -/
def BaseTween.setCallback (u : BaseTween) (type : String) (callback : Nat)
    (params : Option (List JsVal)) (scope : JsVal) : Outcome :=
  let params := params.getD []
  let scope := if scope = JsVal.undefined then JsVal.func callback else scope
  match u.callbacks with
  | none => { self := u, trace := [], result := .error JsError.TypeError }
  | some t =>
    if t.hasOwnProperty type then
      let record : TweenCallback := { func := callback, scope := scope, params := params }
      { self := { u with callbacks := some (t.set type (some record)) },
        trace := [], result := .ok Ret.this }
    else
      { self := u, trace := [], result := .ok Ret.this }

/-- Method `destroy()` (lines 461-469). -/
def BaseTween.destroy (u : BaseTween) : Outcome :=
  let u1 := { u with state := TweenState.DESTROYED, parent := none, callbacks := none }
  { self := u1.removeAllListeners, trace := [], result := .ok Ret.undefined }

/-- Does the unit hold a callbacks object with exactly the keys the constructor gave it. -/
def BaseTween.hasCallbackTable (u : BaseTween) : Bool :=
  match u.callbacks with
  | some t => t.keys == BaseTween.TYPES
  | none => false

/-- A live unit: `destroy` has not run on it, so its state is not DESTROYED and it still
holds the callbacks object made by the constructor (same keys, any values). -/
def BaseTween.Live (u : BaseTween) : Prop :=
  u.state ≠ TweenState.DESTROYED ∧ u.hasCallbackTable = true

instance (u : BaseTween) : Decidable u.Live := by
  unfold BaseTween.Live
  infer_instance

/-- A destroyed unit: the fields written by `destroy` hold what it wrote. -/
def BaseTween.Destroyed (u : BaseTween) : Prop :=
  u.state = TweenState.DESTROYED ∧ u.parent = none ∧ u.callbacks = none

instance (u : BaseTween) : Decidable u.Destroyed := by
  unfold BaseTween.Destroyed
  infer_instance

/-- The handler registered under `type`: the record in that slot of the callbacks object,
`none` when the slot holds `null` or the object has been released. -/
def BaseTween.handler (u : BaseTween) (type : String) : Option TweenCallback :=
  match u.callbacks with
  | some t => t.get type
  | none => none

/-- The trace of invoking a handler once: one `apply` with the scope and parameters of its
record, nothing when there is no handler. -/
def handlerTrace (callback : Option TweenCallback) : List Effect :=
  match callback with
  | some cb => [Effect.apply cb.func cb.scope cb.params]
  | none => []

/-- The deliveries an emission of `event` with `args` makes to the listeners `ls`. -/
def listenerTrace (ls : List Listener) (event : String) (args : List JsVal) : List Effect :=
  (ls.filter (fun l => l.event == event)).map (fun l => Effect.deliver l.fn l.context args)

/-- The subscriptions left after an emission of `event`: all but those made with `once` for
that event. -/
def listenersAfter (ls : List Listener) (event : String) : List Listener :=
  ls.filter (fun l => !(l.event == event && l.once))

/-- The closed set of lifecycle names in the order in which section 6 of the specification
lists them. -/
def specLifecycleNames : List String :=
  ["onActive", "onStart", "onLoop", "onComplete", "onStop", "onPause", "onResume", "onUpdate",
    "onRepeat", "onYoyo"]

/-- A sample set of event names for evaluating the methods on concrete units. -/
def sampleEvents : TweenEvents :=
  { TWEEN_ACTIVE := "active", TWEEN_PAUSE := "pause", TWEEN_RESUME := "resume" }

/-- A live, unpaused unit with an `onPause` and an `onResume` handler and three listeners, one
of them subscribed with `once`. -/
def sampleUnit : BaseTween :=
  { BaseTween.construct (some 7) (some [1, 2]) with
    callbacks := some ((BaseTween.initialCallbacks.set "onPause"
      (some { func := 21, scope := JsVal.func 21, params := [] })).set "onResume"
      (some { func := 22, scope := JsVal.obj 5, params := [JsVal.num 1] }))
    listeners :=
      [{ event := "pause", fn := 11, context := JsVal.this, once := false },
       { event := "pause", fn := 12, context := JsVal.obj 3, once := true },
       { event := "resume", fn := 13, context := JsVal.this, once := false }] }

/-- Is the effect the call `parent.makeActive(...)` on the owning manager. -/
def Effect.isParentCall : Effect → Bool
  | .parentMakeActive _ _ => true
  | _ => false

/-- The calls on the owning manager in a trace. -/
def parentCalls (tr : List Effect) : List Effect :=
  tr.filter Effect.isParentCall

/-- One method call made on a unit by its user or its manager, with its arguments. -/
inductive Call where
  | pause
  | resume
  | setCallback (type : String) (callback : Nat) (params : Option (List JsVal)) (scope : JsVal)
  | setTimeScale (value : Rat)
  | makeActive
  | destroy
  deriving DecidableEq, Repr

/-- The outcome of one call on a unit. -/
def BaseTween.call (ev : TweenEvents) (u : BaseTween) : Call → Outcome
  | .pause => u.pause ev
  | .resume => u.resume ev
  | .setCallback type callback params scope => u.setCallback type callback params scope
  | .setTimeScale value => u.setTimeScale value
  | .makeActive => u.makeActive ev
  | .destroy => u.destroy

/-- A sequence of calls made one after the other on the same unit: the unit after the last
call and the trace of all of them. A call that raises leaves the unit as it was when it
raised and the next call is made on that unit, as when the caller catches the error. -/
def BaseTween.run (ev : TweenEvents) (u : BaseTween) : List Call → BaseTween × List Effect
  | [] => (u, [])
  | c :: cs =>
    let r := u.call ev c
    let rest := BaseTween.run ev r.self cs
    (rest.1, r.trace ++ rest.2)

/-- The data-model invariant of section 3 of the specification: the cached track count is
the length of the track list, both progress values lie in [0, 1] and the countdown is not
negative. -/
def BaseTween.Invariant (u : BaseTween) : Prop :=
  u.totalData = u.data.length ∧ 0 ≤ u.progress ∧ u.progress ≤ 1 ∧
    0 ≤ u.totalProgress ∧ u.totalProgress ≤ 1 ∧ 0 ≤ u.countdown

/-- A sequence of calls without `destroy`, for evaluating `run` on the sample unit. -/
def sampleCalls : List Call :=
  [Call.setCallback "onActive" 23 none JsVal.undefined, Call.makeActive, Call.pause,
    Call.setTimeScale 2, Call.pause, Call.resume, Call.setCallback "onBogus" 24 none JsVal.null]

/-- The unit `r` has the track list, the cached track count, the progress values and the
countdown of the unit `u`. -/
def BaseTween.SameCounters (r u : BaseTween) : Prop :=
  r.data = u.data ∧ r.totalData = u.totalData ∧ r.progress = u.progress ∧
    r.totalProgress = u.totalProgress ∧ r.countdown = u.countdown

/-- Modelled from the spec: clamping of a progress value to the interval [0, 1], as the
stepping of section 4.4 does after dividing the elapsed time by the duration. The stepping
code is not among the sources. -/
def clamp01 (q : Rat) : Rat :=
  max 0 (min 1 q)

/-- Modelled from the spec: a unit under playback, with the terminal "complete" marker that
section 4.4 says the unit raises once `onComplete` has fired; the unit does not destroy
itself. The stepping code (the `update` of the subclass) is not among the sources. -/
structure Playback where
  unit : BaseTween
  complete : Bool
  deriving DecidableEq, Repr

/-- Modelled from the spec: the dispatch of a lifecycle transition by name (section 4.1): the
same-named event is emitted with the unit as payload, then the handler registered under the
name is invoked. It goes through `dispatchEvent` of the sources. -/
def BaseTween.fire (u : BaseTween) (name : String) : Outcome :=
  u.dispatchEvent name (u.handler name)

/-- Modelled from the spec: a tick in state ACTIVE (section 4.4) with scaled delta `d`.
`elapsed` and `totalElapsed` advance by `d` and both progress values are recomputed and
clamped. When `elapsed >= duration` and loops remain (`loopCounter` not 0, -1 being
infinite), `loopCounter` is decremented unless infinite, `elapsed` is reset to 0, `countdown`
is set to `loopDelay` and the unit enters LOOP_DELAY without firing `onLoop` yet; when no loop
remains `countdown` is set to `completeDelay` and the unit enters COMPLETE_DELAY. What a tick
overshoots a boundary by is dropped. -/
def Playback.stepActive (u : BaseTween) (d : Rat) : Playback × List Effect :=
  let elapsed := u.elapsed + d
  let totalElapsed := u.totalElapsed + d
  let u1 : BaseTween :=
    { u with elapsed := elapsed, totalElapsed := totalElapsed,
             progress := clamp01 (elapsed / u.duration),
             totalProgress := clamp01 (totalElapsed / u.totalDuration) }
  if u.duration ≤ elapsed then
    if u.loopCounter ≠ 0 then
      let remaining := if u.loopCounter = -1 then u.loopCounter else u.loopCounter - 1
      ({ unit := { u1 with loopCounter := remaining, elapsed := 0, countdown := u.loopDelay,
                           state := TweenState.LOOP_DELAY },
         complete := false }, [])
    else
      ({ unit := { u1 with countdown := u.completeDelay, state := TweenState.COMPLETE_DELAY },
         complete := false }, [])
  else
    ({ unit := u1, complete := false }, [])

/-- Modelled from the spec: a tick in state LOOP_DELAY (section 4.4) with scaled delta `d`.
The countdown runs down by `d`; when it reaches 0 the unit goes back to ACTIVE, with `elapsed`
at zero, and `onLoop` fires. -/
def Playback.stepLoopDelay (u : BaseTween) (d : Rat) : Playback × List Effect :=
  if u.countdown - d ≤ 0 then
    let u1 : BaseTween := { u with countdown := 0, state := TweenState.ACTIVE }
    ({ unit := (u1.fire "onLoop").self, complete := false }, (u1.fire "onLoop").trace)
  else
    ({ unit := { u with countdown := u.countdown - d }, complete := false }, [])

/-- Modelled from the spec: a tick in state COMPLETE_DELAY (section 4.4) with scaled delta
`d`. The countdown runs down by `d`; when it reaches 0 `onComplete` fires and the unit raises
its complete marker. -/
def Playback.stepCompleteDelay (u : BaseTween) (d : Rat) : Playback × List Effect :=
  if u.countdown - d ≤ 0 then
    let u1 : BaseTween := { u with countdown := 0 }
    ({ unit := (u1.fire "onComplete").self, complete := true }, (u1.fire "onComplete").trace)
  else
    ({ unit := { u with countdown := u.countdown - d }, complete := false }, [])

/-- Modelled from the spec: one tick of `delta` fed by the manager (section 4.4). A unit that
is complete, paused or has `timeScale` 0 is frozen; otherwise the delta is scaled by
`timeScale` and applied according to the state. A unit in PENDING or DESTROYED is not
stepped. The stepping code is not among the sources. -/
def Playback.tick (p : Playback) (delta : Rat) : Playback × List Effect :=
  if p.complete = true ∨ p.unit.paused = true ∨ p.unit.timeScale = 0 then (p, [])
  else
    match p.unit.state with
    | TweenState.ACTIVE => Playback.stepActive p.unit (delta * p.unit.timeScale)
    | TweenState.LOOP_DELAY => Playback.stepLoopDelay p.unit (delta * p.unit.timeScale)
    | TweenState.COMPLETE_DELAY => Playback.stepCompleteDelay p.unit (delta * p.unit.timeScale)
    | TweenState.PENDING => (p, [])
    | TweenState.DESTROYED => (p, [])

/-- Modelled from the spec: a run, the ticks of a list fed one after the other, with the
trace of all of them. -/
def Playback.run (p : Playback) : List Rat → Playback × List Effect
  | [] => (p, [])
  | delta :: rest =>
    let r := p.tick delta
    let rr := Playback.run r.1 rest
    (rr.1, r.2 ++ rr.2)

/-- The name of the event an effect emits, when it is an emission. -/
def Effect.emitted : Effect → Option String
  | .emit event _ => some event
  | _ => none

/-- The names of the events emitted in a trace, in order. -/
def firedNames (tr : List Effect) : List String :=
  tr.filterMap Effect.emitted

/-- The shape of a unit with two loops in each of the seven phases of its run: complete
marker, state and loops remaining. Phases 0, 2 and 4 are the three playthroughs, 1 and 3 the
two loop delays, 5 the completion delay and 6 the completed run. -/
def loopPhaseShape : Nat → Bool × TweenState × Int
  | 0 => (false, TweenState.ACTIVE, 2)
  | 1 => (false, TweenState.LOOP_DELAY, 1)
  | 2 => (false, TweenState.ACTIVE, 1)
  | 3 => (false, TweenState.LOOP_DELAY, 0)
  | 4 => (false, TweenState.ACTIVE, 0)
  | 5 => (false, TweenState.COMPLETE_DELAY, 0)
  | _ => (true, TweenState.COMPLETE_DELAY, 0)

/-- The events fired up to each phase of a run with two loops. -/
def loopPhaseFired : Nat → List String
  | 0 => []
  | 1 => []
  | 2 => ["onLoop"]
  | 3 => ["onLoop"]
  | 4 => ["onLoop", "onLoop"]
  | 5 => ["onLoop", "onLoop"]
  | _ => ["onLoop", "onLoop", "onComplete"]

/-- The complete marker, state and loops remaining of a unit under playback. -/
def Playback.shape (p : Playback) : Bool × TweenState × Int :=
  (p.complete, p.unit.state, p.unit.loopCounter)

/-- A unit under playback is in phase `k` of a run with two loops, unpaused and with time
scale `ts`. -/
def Playback.inPhase (ts : Rat) (p : Playback) (k : Nat) : Prop :=
  p.unit.paused = false ∧ p.unit.timeScale = ts ∧ p.shape = loopPhaseShape k

/-- The unit of the concrete scenario of section 8 of the specification, with two loops:
duration 1000, loop delay 200, completion delay 100, at the start of its run. -/
def sampleLoopUnit : BaseTween :=
  { sampleUnit with
    state := TweenState.ACTIVE, loop := 2, loopCounter := 2, duration := 1000,
    loopDelay := 200, completeDelay := 100, totalDuration := 3500 }

/-- What is left of the current phase of a unit under playback, in scaled time: the part of
the playthrough not yet played in ACTIVE, the countdown in a delay, nothing once complete. -/
def Playback.remaining (p : Playback) : Rat :=
  if p.complete = true then 0
  else
    match p.unit.state with
    | TweenState.ACTIVE => p.unit.duration - p.unit.elapsed
    | TweenState.LOOP_DELAY => p.unit.countdown
    | TweenState.COMPLETE_DELAY => p.unit.countdown
    | TweenState.PENDING => 0
    | TweenState.DESTROYED => 0

/-- The length of each phase of a run with two loops: a playthrough lasts `duration`, a loop
delay `loopDelay`, the completion delay `completeDelay`. -/
def loopPhaseLength (u : BaseTween) : Nat → Rat
  | 0 => u.duration
  | 1 => u.loopDelay
  | 2 => u.duration
  | 3 => u.loopDelay
  | 4 => u.duration
  | 5 => u.completeDelay
  | _ => 0

/-- The scaled time taken by the phases before phase `m` of a run with two loops. -/
def loopTimeBefore (u : BaseTween) : Nat → Rat
  | 0 => 0
  | m + 1 => loopTimeBefore u m + loopPhaseLength u m

/-- The scaled time a unit in phase `k`, with `r` left of that phase, still needs before it
enters phase `m`. -/
def loopTimeToPhase (u : BaseTween) (m k : Nat) (r : Rat) : Rat :=
  if m ≤ k then 0 else r + (loopTimeBefore u m - loopTimeBefore u (k + 1))

/-- The event fired when a run with two loops leaves phase `k`: `onLoop` at the end of each
loop delay, `onComplete` at the end of the completion delay. -/
def loopPhaseEvent : Nat → List String
  | 1 => ["onLoop"]
  | 3 => ["onLoop"]
  | 5 => ["onComplete"]
  | _ => []

/-- The trace of dispatching the named transitions of `u` one after the other, listener
deliveries left out: for each name its emission with the unit as payload followed by the
invocation of the handler registered under it. -/
def transitionTrace (u : BaseTween) : List String → List Effect
  | [] => []
  | name :: rest =>
    (Effect.emit name [JsVal.this] :: handlerTrace (u.handler name)) ++ transitionTrace u rest

/-- A trace without its listener deliveries. -/
def withoutDeliveries (tr : List Effect) : List Effect :=
  tr.filter (fun e => !e.isDeliver)

/-- The scaled time fed by a list of ticks to a unit of time scale `ts`. -/
def scaledTime (ts : Rat) (ds : List Rat) : Rat :=
  (ds.map (fun delta => delta * ts)).sum

/-- The unit under playback has the duration, the delays and the callbacks object of the unit
`u0` its run started from, and in a loop delay its `elapsed` is back at zero. -/
def Playback.Steady (u0 : BaseTween) (p : Playback) : Prop :=
  p.unit.duration = u0.duration ∧ p.unit.loopDelay = u0.loopDelay ∧
    p.unit.completeDelay = u0.completeDelay ∧ p.unit.callbacks = u0.callbacks ∧
    (p.unit.state = TweenState.LOOP_DELAY → p.unit.elapsed = 0)

/-! ## The callbacks object -/

theorem TweenCallbacks.hasOwnProperty_iff (t : TweenCallbacks) (k : String) :
    t.hasOwnProperty k = true ↔ k ∈ t.keys := by
  induction t with
  | nil => simp [TweenCallbacks.hasOwnProperty, TweenCallbacks.keys]
  | cons p t ih =>
    simp only [TweenCallbacks.hasOwnProperty, TweenCallbacks.keys] at ih ⊢
    simp only [List.any_cons, Bool.or_eq_true, beq_iff_eq, List.map_cons, List.mem_cons, ih]
    constructor
    · rintro (h | h)
      · exact Or.inl h.symm
      · exact Or.inr h
    · rintro (h | h)
      · exact Or.inl h.symm
      · exact Or.inr h

theorem TweenCallbacks.keys_map_update (t : TweenCallbacks) (k : String)
    (v : Option TweenCallback) :
    TweenCallbacks.keys (t.map (fun p => if p.1 == k then (p.1, v) else p)) = t.keys := by
  induction t with
  | nil => rfl
  | cons p t ih =>
    simp only [TweenCallbacks.keys, List.map_cons, List.cons.injEq] at ih ⊢
    refine ⟨?_, ih⟩
    split <;> rfl

theorem TweenCallbacks.keys_set (t : TweenCallbacks) (k : String) (v : Option TweenCallback)
    (h : t.hasOwnProperty k = true) : (t.set k v).keys = t.keys := by
  simp only [TweenCallbacks.set, h, if_true]
  exact TweenCallbacks.keys_map_update t k v

theorem TweenCallbacks.get_cons (p : String × Option TweenCallback) (t : TweenCallbacks)
    (k : String) :
    TweenCallbacks.get (p :: t) k = if p.1 = k then p.2 else TweenCallbacks.get t k := by
  unfold TweenCallbacks.get
  rw [List.find?_cons]
  by_cases hp : p.1 = k
  · have hb : (p.1 == k) = true := by simp [hp]
    rw [hb, if_pos hp]
  · have hb : (p.1 == k) = false := by simp [hp]
    rw [hb, if_neg hp]

theorem TweenCallbacks.hasOwnProperty_cons (p : String × Option TweenCallback)
    (t : TweenCallbacks) (k : String) :
    TweenCallbacks.hasOwnProperty (p :: t) k
      = (decide (p.1 = k) || TweenCallbacks.hasOwnProperty t k) := by
  unfold TweenCallbacks.hasOwnProperty
  rw [List.any_cons]
  by_cases hp : p.1 = k <;> simp [hp]

theorem TweenCallbacks.get_map_update_same (t : TweenCallbacks) (k : String)
    (v : Option TweenCallback) (h : t.hasOwnProperty k = true) :
    TweenCallbacks.get (t.map (fun p => if p.1 == k then (p.1, v) else p)) k = v := by
  induction t with
  | nil => simp [TweenCallbacks.hasOwnProperty] at h
  | cons p t ih =>
    rw [List.map_cons, TweenCallbacks.get_cons]
    rw [TweenCallbacks.hasOwnProperty_cons] at h
    by_cases hp : p.1 = k
    · simp [hp]
    · have ht : TweenCallbacks.hasOwnProperty t k = true := by simpa [hp] using h
      have hb : ¬ (p.1 == k) = true := by simpa using hp
      rw [if_neg hb, if_neg hp]
      exact ih ht

theorem TweenCallbacks.get_map_update_other (t : TweenCallbacks) (k k2 : String)
    (v : Option TweenCallback) (hne : k2 ≠ k) :
    TweenCallbacks.get (t.map (fun p => if p.1 == k then (p.1, v) else p)) k2 = t.get k2 := by
  induction t with
  | nil => rfl
  | cons p t ih =>
    rw [List.map_cons, TweenCallbacks.get_cons, TweenCallbacks.get_cons, ih]
    by_cases hp : p.1 = k
    · have hp2 : ¬ p.1 = k2 := fun h => hne (h.symm.trans hp)
      have hk : ¬ k = k2 := fun h => hne h.symm
      simp [hp, hp2, hk]
    · simp [hp]

theorem TweenCallbacks.get_set_same (t : TweenCallbacks) (k : String) (v : Option TweenCallback)
    (h : t.hasOwnProperty k = true) : (t.set k v).get k = v := by
  simp only [TweenCallbacks.set, h, if_true]
  exact TweenCallbacks.get_map_update_same t k v h

theorem TweenCallbacks.get_set_other (t : TweenCallbacks) (k k2 : String)
    (v : Option TweenCallback) (h : t.hasOwnProperty k = true) (hne : k2 ≠ k) :
    (t.set k v).get k2 = t.get k2 := by
  simp only [TweenCallbacks.set, h, if_true]
  exact TweenCallbacks.get_map_update_other t k k2 v hne

/-! ## Live units -/

theorem BaseTween.Live.table {u : BaseTween} (h : u.Live) :
    ∃ t, u.callbacks = some t ∧ t.keys = BaseTween.TYPES := by
  obtain ⟨_, h2⟩ := h
  unfold BaseTween.hasCallbackTable at h2
  cases hc : u.callbacks with
  | none => simp [hc] at h2
  | some t =>
    refine ⟨t, rfl, ?_⟩
    simpa [hc] using h2

/-! ## Emission and dispatch -/

theorem emissions_listenerTrace (ls : List Listener) (event : String) (args : List JsVal) :
    emissions (listenerTrace ls event args) = [] := by
  unfold emissions listenerTrace
  rw [List.filter_eq_nil_iff]
  intro e he
  obtain ⟨l, _, rfl⟩ := List.mem_map.mp he
  simp [Effect.isEmit]

theorem handlerCalls_listenerTrace (ls : List Listener) (event : String) (args : List JsVal) :
    handlerCalls (listenerTrace ls event args) = [] := by
  unfold handlerCalls listenerTrace
  rw [List.filter_eq_nil_iff]
  intro e he
  obtain ⟨l, _, rfl⟩ := List.mem_map.mp he
  simp [Effect.isApply]

theorem emissions_handlerTrace (cb : Option TweenCallback) :
    emissions (handlerTrace cb) = [] := by
  cases cb <;> rfl

theorem handlerCalls_handlerTrace (cb : Option TweenCallback) :
    handlerCalls (handlerTrace cb) = handlerTrace cb := by
  cases cb <;> rfl

theorem handlerTrace_length_le (cb : Option TweenCallback) : (handlerTrace cb).length ≤ 1 := by
  cases cb <;> simp [handlerTrace]

theorem BaseTween.emit_eq (u : BaseTween) (event : String) (args : List JsVal) :
    u.emit event args =
      ({ u with listeners := listenersAfter u.listeners event },
        Effect.emit event args :: listenerTrace u.listeners event args) :=
  rfl

theorem BaseTween.dispatchEvent_eq (u : BaseTween) (event : String)
    (cb : Option TweenCallback) :
    u.dispatchEvent event cb =
      { self := { u with listeners := listenersAfter u.listeners event },
        trace := Effect.emit event [JsVal.this]
          :: (listenerTrace u.listeners event [JsVal.this] ++ handlerTrace cb),
        result := .ok Ret.undefined } := by
  cases cb <;> simp [BaseTween.dispatchEvent, BaseTween.emit_eq, handlerTrace]

theorem emissions_dispatch (ls : List Listener) (event : String) (args : List JsVal)
    (cb : Option TweenCallback) :
    emissions (Effect.emit event args :: (listenerTrace ls event args ++ handlerTrace cb))
      = [Effect.emit event args] := by
  have h1 := emissions_listenerTrace ls event args
  have h2 := emissions_handlerTrace cb
  unfold emissions at h1 h2 ⊢
  rw [List.filter_cons_of_pos (by rfl), List.filter_append, h1, h2]
  rfl

theorem handlerCalls_dispatch (ls : List Listener) (event : String) (args : List JsVal)
    (cb : Option TweenCallback) :
    handlerCalls (Effect.emit event args :: (listenerTrace ls event args ++ handlerTrace cb))
      = handlerTrace cb := by
  have h1 := handlerCalls_listenerTrace ls event args
  have h2 := handlerCalls_handlerTrace cb
  unfold handlerCalls at h1 h2 ⊢
  rw [List.filter_cons_of_neg (by simp [Effect.isApply]), List.filter_append, h1, h2]
  rfl

/-! ## pause and resume on a unit that holds its callbacks object -/

theorem BaseTween.pause_of_paused (ev : TweenEvents) (u : BaseTween) (hp : u.paused = true) :
    u.pause ev = { self := u, trace := [], result := .ok Ret.this } := by
  simp [BaseTween.pause, hp]

theorem BaseTween.pause_of_table (ev : TweenEvents) (u : BaseTween) (t : TweenCallbacks)
    (hc : u.callbacks = some t) (hp : u.paused = false) :
    u.pause ev =
      { self := { u with paused := true,
                         listeners := listenersAfter u.listeners ev.TWEEN_PAUSE },
        trace := Effect.emit ev.TWEEN_PAUSE [JsVal.this]
          :: (listenerTrace u.listeners ev.TWEEN_PAUSE [JsVal.this]
              ++ handlerTrace (t.get "onPause")),
        result := .ok Ret.this } := by
  simp [BaseTween.pause, hp, hc, BaseTween.dispatchEvent_eq]

theorem BaseTween.resume_of_unpaused (ev : TweenEvents) (u : BaseTween)
    (hp : u.paused = false) :
    u.resume ev = { self := u, trace := [], result := .ok Ret.this } := by
  simp [BaseTween.resume, hp]

theorem BaseTween.resume_of_table (ev : TweenEvents) (u : BaseTween) (t : TweenCallbacks)
    (hc : u.callbacks = some t) (hp : u.paused = true) :
    u.resume ev =
      { self := { u with paused := false,
                         listeners := listenersAfter u.listeners ev.TWEEN_RESUME },
        trace := Effect.emit ev.TWEEN_RESUME [JsVal.this]
          :: (listenerTrace u.listeners ev.TWEEN_RESUME [JsVal.this]
              ++ handlerTrace (t.get "onResume")),
        result := .ok Ret.this } := by
  simp [BaseTween.resume, hp, hc, BaseTween.dispatchEvent_eq]

theorem BaseTween.handler_of_table (u : BaseTween) (t : TweenCallbacks)
    (hc : u.callbacks = some t) (type : String) : u.handler type = t.get type := by
  simp [BaseTween.handler, hc]

/-! ## Claims on pause and resume -/

/-- C1: on a live unit that is not paused, `pause()` sets `paused`, returns the unit, calls
`emit` with the pause event exactly once and invokes the registered `onPause` handler exactly
once (no invocation when none is registered); on a live unit that is already paused it changes
nothing and dispatches nothing. Over two consecutive calls the pause event is emitted and the
handler invoked at most once, and exactly once when the unit started unpaused. -/
theorem pause_contract (ev : TweenEvents) (u : BaseTween) (h : u.Live) :
    (u.paused = false →
      (u.pause ev).self.paused = true ∧
      (u.pause ev).result = .ok Ret.this ∧
      emissions (u.pause ev).trace = [Effect.emit ev.TWEEN_PAUSE [JsVal.this]] ∧
      handlerCalls (u.pause ev).trace = handlerTrace (u.handler "onPause")) ∧
    (u.paused = true →
      (u.pause ev).self = u ∧ (u.pause ev).trace = [] ∧ (u.pause ev).result = .ok Ret.this) ∧
    (emissions ((u.pause ev).trace ++ ((u.pause ev).self.pause ev).trace)).length ≤ 1 ∧
    (handlerCalls ((u.pause ev).trace ++ ((u.pause ev).self.pause ev).trace)).length ≤ 1 ∧
    (u.paused = false →
      emissions ((u.pause ev).trace ++ ((u.pause ev).self.pause ev).trace)
        = [Effect.emit ev.TWEEN_PAUSE [JsVal.this]] ∧
      handlerCalls ((u.pause ev).trace ++ ((u.pause ev).self.pause ev).trace)
        = handlerTrace (u.handler "onPause")) := by
  obtain ⟨t, hc, _⟩ := h.table
  have hh : u.handler "onPause" = t.get "onPause" := u.handler_of_table t hc _
  cases hp : u.paused with
  | true =>
    have e1 := u.pause_of_paused ev hp
    rw [e1]
    simp [e1, emissions, handlerCalls]
  | false =>
    have e1 := u.pause_of_table ev t hc hp
    rw [e1]
    simp only
    rw [BaseTween.pause_of_paused ev _ rfl]
    simp only [List.append_nil]
    rw [emissions_dispatch, handlerCalls_dispatch, hh]
    simp [handlerTrace_length_le]

/-- Witness for C1 on the sample unit: live, unpaused, with an `onPause` handler. -/
theorem pause_contract_witness :
    sampleUnit.Live ∧ sampleUnit.paused = false ∧
      (sampleUnit.pause sampleEvents).self.paused = true ∧
      handlerCalls (sampleUnit.pause sampleEvents).trace
        = [Effect.apply 21 (JsVal.func 21) []] :=
  ⟨by decide, rfl,
    ((pause_contract sampleEvents sampleUnit (by decide)).1 rfl).1,
    ((pause_contract sampleEvents sampleUnit (by decide)).1 rfl).2.2.2.trans (by decide)⟩

/-- C2: on a live unit that is paused, `resume()` clears `paused`, calls `emit` with the
resume event exactly once and invokes the registered `onResume` handler exactly once (no
invocation when none is registered); on a live unit that is not paused it changes nothing,
dispatches nothing and does not raise. In both cases it returns the unit. -/
theorem resume_contract (ev : TweenEvents) (u : BaseTween) (h : u.Live) :
    (u.paused = true →
      (u.resume ev).self.paused = false ∧
      emissions (u.resume ev).trace = [Effect.emit ev.TWEEN_RESUME [JsVal.this]] ∧
      handlerCalls (u.resume ev).trace = handlerTrace (u.handler "onResume")) ∧
    (u.paused = false → (u.resume ev).self = u ∧ (u.resume ev).trace = []) ∧
    (u.resume ev).result = .ok Ret.this := by
  obtain ⟨t, hc, _⟩ := h.table
  have hh : u.handler "onResume" = t.get "onResume" := u.handler_of_table t hc _
  cases hp : u.paused with
  | false =>
    rw [u.resume_of_unpaused ev hp]
    simp
  | true =>
    rw [u.resume_of_table ev t hc hp]
    simp only
    rw [emissions_dispatch, handlerCalls_dispatch, hh]
    simp

/-- Witness for C2 on the sample unit after a pause: live, paused, with an `onResume`
handler. -/
theorem resume_contract_witness :
    (sampleUnit.pause sampleEvents).self.Live ∧
      (sampleUnit.pause sampleEvents).self.paused = true ∧
      ((sampleUnit.pause sampleEvents).self.resume sampleEvents).self.paused = false ∧
      handlerCalls ((sampleUnit.pause sampleEvents).self.resume sampleEvents).trace
        = [Effect.apply 22 (JsVal.obj 5) [JsVal.num 1]] :=
  ⟨by decide, by decide,
    ((resume_contract sampleEvents (sampleUnit.pause sampleEvents).self (by decide)).1
      (by decide)).1,
    ((resume_contract sampleEvents (sampleUnit.pause sampleEvents).self (by decide)).1
      (by decide)).2.2.trans (by decide)⟩

/-- C3: `isPlaying()` is true exactly when `paused` is false and `state` is ACTIVE, for every
unit whatever its state; it is false after `pause()`, false on a freshly constructed unit and
false after `destroy()`. -/
theorem isPlaying_iff (ev : TweenEvents) (u : BaseTween) (parent : Option Nat)
    (data : Option (List Nat)) :
    (u.isPlaying = true ↔ (u.paused = false ∧ u.state = TweenState.ACTIVE)) ∧
    (u.pause ev).self.isPlaying = false ∧
    (BaseTween.construct parent data).isPlaying = false ∧
    u.destroy.self.isPlaying = false := by
  refine ⟨?_, ?_, ?_, ?_⟩
  · simp [BaseTween.isPlaying]
  · cases hp : u.paused with
    | true => simp [BaseTween.pause_of_paused ev u hp, BaseTween.isPlaying, hp]
    | false =>
      cases hc : u.callbacks with
      | none => simp [BaseTween.pause, hp, hc, BaseTween.isPlaying]
      | some t => simp [BaseTween.pause_of_table ev u t hc hp, BaseTween.isPlaying]
  · simp [BaseTween.isPlaying, BaseTween.construct]
  · simp [BaseTween.isPlaying, BaseTween.destroy, BaseTween.removeAllListeners]

/-! ## Claims on the callback registry -/

theorem BaseTween.setCallback_of_absent (u : BaseTween) (t : TweenCallbacks)
    (hc : u.callbacks = some t) (name : String) (hn : t.hasOwnProperty name = false)
    (fn : Nat) (params : Option (List JsVal)) (scope : JsVal) :
    u.setCallback name fn params scope = { self := u, trace := [], result := .ok Ret.this } := by
  simp [BaseTween.setCallback, hc, hn]

theorem BaseTween.setCallback_of_present (u : BaseTween) (t : TweenCallbacks)
    (hc : u.callbacks = some t) (name : String) (hn : t.hasOwnProperty name = true)
    (fn : Nat) (params : Option (List JsVal)) (scope : JsVal) :
    u.setCallback name fn params scope =
      { self := { u with callbacks := some (t.set name (some
          { func := fn,
            scope := if scope = JsVal.undefined then JsVal.func fn else scope,
            params := params.getD [] })) },
        trace := [], result := .ok Ret.this } := by
  simp [BaseTween.setCallback, hc, hn]

theorem BaseTween.Live.ownKey_iff {u : BaseTween} (h : u.Live) (t : TweenCallbacks)
    (hc : u.callbacks = some t) (name : String) :
    t.hasOwnProperty name = true ↔ name ∈ BaseTween.TYPES := by
  obtain ⟨t2, hc2, hk⟩ := h.table
  rw [hc] at hc2
  cases hc2
  rw [TweenCallbacks.hasOwnProperty_iff, hk]

/-- C4: on a live unit, `setCallback` with a name outside the ten lifecycle names does not
raise, returns the unit, calls nothing and leaves the unit as it was, handler slots
included. -/
theorem setCallback_unknown_name (u : BaseTween) (h : u.Live) (name : String)
    (hn : name ∉ BaseTween.TYPES) (fn : Nat) (params : Option (List JsVal)) (scope : JsVal) :
    (u.setCallback name fn params scope).result = .ok Ret.this ∧
    (u.setCallback name fn params scope).self = u ∧
    (u.setCallback name fn params scope).trace = [] ∧
    ∀ k, (u.setCallback name fn params scope).self.handler k = u.handler k := by
  obtain ⟨t, hc, _⟩ := h.table
  have hno : t.hasOwnProperty name = false := by
    cases hb : t.hasOwnProperty name with
    | false => rfl
    | true => exact absurd ((h.ownKey_iff t hc name).mp hb) hn
  rw [u.setCallback_of_absent t hc name hno]
  simp

/-- Witness for C4: the inherited property names `toString` and `hasOwnProperty` and the
wrongly cased `onpause` leave the sample unit untouched. -/
theorem setCallback_unknown_name_witness :
    sampleUnit.Live ∧ "toString" ∉ BaseTween.TYPES ∧ "hasOwnProperty" ∉ BaseTween.TYPES ∧
      "onpause" ∉ BaseTween.TYPES ∧
      (sampleUnit.setCallback "toString" 30 none JsVal.undefined).self = sampleUnit ∧
      (sampleUnit.setCallback "hasOwnProperty" 30 none JsVal.undefined).self = sampleUnit ∧
      (sampleUnit.setCallback "onpause" 30 (some []) (JsVal.obj 1)).self = sampleUnit :=
  ⟨by decide, by decide, by decide, by decide,
    (setCallback_unknown_name sampleUnit (by decide) "toString" (by decide) 30 none
      JsVal.undefined).2.1,
    (setCallback_unknown_name sampleUnit (by decide) "hasOwnProperty" (by decide) 30 none
      JsVal.undefined).2.1,
    (setCallback_unknown_name sampleUnit (by decide) "onpause" (by decide) 30 (some [])
      (JsVal.obj 1)).2.1⟩

/-- C5: on a live unit, `setCallback` with one of the ten lifecycle names stores the record
`{ func, scope, params }` in the slot of that name, whatever the slot held before, with
`params` defaulting to the empty list and `scope` to the callback itself; the other slots and
every field other than `callbacks` keep their values, nothing is called and the unit is
returned. -/
theorem setCallback_known_name (u : BaseTween) (h : u.Live) (name : String)
    (hn : name ∈ BaseTween.TYPES) (fn : Nat) (params : Option (List JsVal)) (scope : JsVal) :
    (u.setCallback name fn params scope).self.handler name
      = some { func := fn,
               scope := if scope = JsVal.undefined then JsVal.func fn else scope,
               params := params.getD [] } ∧
    (u.setCallback name fn none JsVal.undefined).self.handler name
      = some { func := fn, scope := JsVal.func fn, params := [] } ∧
    (∀ k, k ≠ name → (u.setCallback name fn params scope).self.handler k = u.handler k) ∧
    (u.setCallback name fn params scope).self
      = { u with callbacks := (u.setCallback name fn params scope).self.callbacks } ∧
    (u.setCallback name fn params scope).self.Live ∧
    (u.setCallback name fn params scope).trace = [] ∧
    (u.setCallback name fn params scope).result = .ok Ret.this := by
  obtain ⟨t, hc, hk⟩ := h.table
  have hyes : t.hasOwnProperty name = true := (h.ownKey_iff t hc name).mpr hn
  rw [u.setCallback_of_present t hc name hyes, u.setCallback_of_present t hc name hyes]
  refine ⟨?_, ?_, ?_, rfl, ?_, rfl, rfl⟩
  · simp [BaseTween.handler, TweenCallbacks.get_set_same t name _ hyes]
  · simp [BaseTween.handler, TweenCallbacks.get_set_same t name _ hyes]
  · intro k hkn
    simp [BaseTween.handler, hc, TweenCallbacks.get_set_other t name k _ hyes hkn]
  · refine ⟨h.1, ?_⟩
    simp [BaseTween.hasCallbackTable, TweenCallbacks.keys_set t name _ hyes, hk]

/-- Witness for C5: registering `onPause` on the sample unit replaces the handler it had and
keeps its `onResume` handler. -/
theorem setCallback_known_name_witness :
    sampleUnit.Live ∧ "onPause" ∈ BaseTween.TYPES ∧
      sampleUnit.handler "onPause" = some { func := 21, scope := JsVal.func 21, params := [] } ∧
      (sampleUnit.setCallback "onPause" 40 none JsVal.undefined).self.handler "onPause"
        = some { func := 40, scope := JsVal.func 40, params := [] } ∧
      (sampleUnit.setCallback "onPause" 40 none JsVal.undefined).self.handler "onResume"
        = sampleUnit.handler "onResume" :=
  ⟨by decide, by decide, by decide,
    (setCallback_known_name sampleUnit (by decide) "onPause" (by decide) 40 none
      JsVal.undefined).2.1,
    (setCallback_known_name sampleUnit (by decide) "onPause" (by decide) 40 none
      JsVal.undefined).2.2.1 "onResume" (by decide)⟩

theorem TweenCallbacks.get_of_absent (t : TweenCallbacks) (k : String)
    (h : t.hasOwnProperty k = false) : t.get k = none := by
  induction t with
  | nil => rfl
  | cons p t ih =>
    rw [TweenCallbacks.hasOwnProperty_cons] at h
    rw [TweenCallbacks.get_cons]
    by_cases hp : p.1 = k
    · simp [hp] at h
    · rw [if_neg hp]
      exact ih (by simpa [hp] using h)

theorem BaseTween.construct_live (parent : Option Nat) (data : Option (List Nat)) :
    (BaseTween.construct parent data).Live :=
  ⟨by simp [BaseTween.construct], by
    show (BaseTween.initialCallbacks.keys == BaseTween.TYPES) = true
    decide⟩

theorem BaseTween.mem_TYPES_iff (name : String) :
    name ∈ BaseTween.TYPES ↔ name ∈ specLifecycleNames := by
  simp only [BaseTween.TYPES, specLifecycleNames, List.mem_cons, List.mem_singleton,
    List.mem_nil_iff, or_false]
  tauto

/-- C6: on a freshly constructed unit `setCallback` registers a handler exactly for the ten
names `onActive`, `onStart`, `onLoop`, `onComplete`, `onStop`, `onPause`, `onResume`,
`onUpdate`, `onRepeat`, `onYoyo` and leaves the unit as constructed for every other name; these
are the keys of the initial callbacks object and the entries of `BaseTween.TYPES`, ten
distinct names. -/
theorem callback_names (parent : Option Nat) (data : Option (List Nat)) (name : String)
    (fn : Nat) (params : Option (List JsVal)) (scope : JsVal) :
    (((BaseTween.construct parent data).setCallback name fn params scope).self.handler name
        = some { func := fn,
                 scope := if scope = JsVal.undefined then JsVal.func fn else scope,
                 params := params.getD [] }
      ↔ name ∈ specLifecycleNames) ∧
    (name ∉ specLifecycleNames →
      ((BaseTween.construct parent data).setCallback name fn params scope).self
        = BaseTween.construct parent data) ∧
    (name ∈ BaseTween.initialCallbacks.keys ↔ name ∈ specLifecycleNames) ∧
    (name ∈ BaseTween.TYPES ↔ name ∈ specLifecycleNames) ∧
    BaseTween.initialCallbacks.keys = BaseTween.TYPES ∧
    BaseTween.TYPES.Nodup ∧ BaseTween.TYPES.length = 10 := by
  have hl := BaseTween.construct_live parent data
  have hc : (BaseTween.construct parent data).callbacks = some BaseTween.initialCallbacks := rfl
  have hkeys : BaseTween.initialCallbacks.keys = BaseTween.TYPES := by decide
  have hmem := BaseTween.mem_TYPES_iff name
  refine ⟨?_, ?_, by rw [hkeys]; exact hmem, hmem, hkeys, by decide, by decide⟩
  · by_cases hn : name ∈ BaseTween.TYPES
    · have hyes := (hl.ownKey_iff _ hc name).mpr hn
      rw [BaseTween.setCallback_of_present _ _ hc name hyes]
      simp [BaseTween.handler, TweenCallbacks.get_set_same _ name _ hyes, hmem.mp hn]
    · have hno : BaseTween.initialCallbacks.hasOwnProperty name = false := by
        cases hb : BaseTween.initialCallbacks.hasOwnProperty name with
        | false => rfl
        | true => exact absurd ((hl.ownKey_iff _ hc name).mp hb) hn
      rw [BaseTween.setCallback_of_absent _ _ hc name hno]
      have hnone : (BaseTween.construct parent data).handler name = none := by
        rw [BaseTween.handler_of_table _ _ hc]
        exact TweenCallbacks.get_of_absent _ _ hno
      simp only [hnone]
      constructor
      · intro h0
        cases h0
      · intro h0
        exact absurd (hmem.mpr h0) hn
  · intro hn
    have hn2 : name ∉ BaseTween.TYPES := fun h0 => hn (hmem.mp h0)
    have hno : BaseTween.initialCallbacks.hasOwnProperty name = false := by
      cases hb : BaseTween.initialCallbacks.hasOwnProperty name with
      | false => rfl
      | true => exact absurd ((hl.ownKey_iff _ hc name).mp hb) hn2
    rw [BaseTween.setCallback_of_absent _ _ hc name hno]

/-! ## Claims on dispatch and teardown -/

/-- C7: `dispatchEvent(event, callback)` first calls `emit` with the event and the unit as
only argument, then, after the deliveries of that emission, invokes `callback.func` once with
`callback.scope` and `callback.params`; with no callback it emits and invokes nothing. The
emission happens once in either case and the method does not raise. -/
theorem dispatchEvent_order (u : BaseTween) (event : String) (cb : TweenCallback)
    (callback : Option TweenCallback) :
    (u.dispatchEvent event (some cb)).trace
      = Effect.emit event [JsVal.this]
          :: (listenerTrace u.listeners event [JsVal.this]
              ++ [Effect.apply cb.func cb.scope cb.params]) ∧
    handlerCalls (u.dispatchEvent event (some cb)).trace
      = [Effect.apply cb.func cb.scope cb.params] ∧
    (u.dispatchEvent event none).trace
      = Effect.emit event [JsVal.this] :: listenerTrace u.listeners event [JsVal.this] ∧
    handlerCalls (u.dispatchEvent event none).trace = [] ∧
    emissions (u.dispatchEvent event callback).trace = [Effect.emit event [JsVal.this]] ∧
    (u.dispatchEvent event callback).trace.head? = some (Effect.emit event [JsVal.this]) ∧
    (u.dispatchEvent event callback).result = .ok Ret.undefined := by
  simp only [BaseTween.dispatchEvent_eq, emissions_dispatch, handlerCalls_dispatch]
  simp [handlerTrace]

/-- C8: from any unit, `destroy()` returns without raising and leaves `state` DESTROYED,
`parent` and `callbacks` released and no listener subscribed; it emits nothing and invokes
nothing. -/
theorem destroy_contract (u : BaseTween) :
    u.destroy.result = .ok Ret.undefined ∧
    u.destroy.self.state = TweenState.DESTROYED ∧
    u.destroy.self.parent = none ∧
    u.destroy.self.callbacks = none ∧
    u.destroy.self.listeners = [] ∧
    u.destroy.trace = [] :=
  ⟨rfl, rfl, rfl, rfl, rfl, rfl⟩

/-- C9: `destroy()` is idempotent: a second `destroy()` leaves the unit, its listener table
included, as the first left it, and the trace of the two calls is the trace of one. -/
theorem destroy_idempotent (u : BaseTween) :
    u.destroy.self.destroy.self = u.destroy.self ∧
    u.destroy.trace ++ u.destroy.self.destroy.trace = u.destroy.trace ∧
    u.destroy.self.destroy.result = u.destroy.result :=
  ⟨rfl, rfl, rfl⟩

/-! ## Liveness is kept by every method but destroy -/

theorem BaseTween.pause_live (ev : TweenEvents) (u : BaseTween) (h : u.Live) :
    (u.pause ev).self.Live := by
  obtain ⟨t, hc, hk⟩ := h.table
  cases hp : u.paused with
  | true =>
    rw [u.pause_of_paused ev hp]
    exact h
  | false =>
    rw [u.pause_of_table ev t hc hp]
    exact ⟨h.1, by simpa [BaseTween.hasCallbackTable, hc] using hk⟩

theorem BaseTween.resume_live (ev : TweenEvents) (u : BaseTween) (h : u.Live) :
    (u.resume ev).self.Live := by
  obtain ⟨t, hc, hk⟩ := h.table
  cases hp : u.paused with
  | false =>
    rw [u.resume_of_unpaused ev hp]
    exact h
  | true =>
    rw [u.resume_of_table ev t hc hp]
    exact ⟨h.1, by simpa [BaseTween.hasCallbackTable, hc] using hk⟩

theorem BaseTween.setTimeScale_live (u : BaseTween) (v : Rat) (h : u.Live) :
    (u.setTimeScale v).self.Live :=
  h

theorem BaseTween.destroy_destroyed (u : BaseTween) : u.destroy.self.Destroyed :=
  ⟨rfl, rfl, rfl⟩

theorem BaseTween.destroy_not_live (u : BaseTween) : ¬ u.destroy.self.Live :=
  fun h => h.1 rfl

/-! ## Methods called on a destroyed unit -/

theorem BaseTween.pause_of_released (ev : TweenEvents) (u : BaseTween)
    (hc : u.callbacks = none) (hp : u.paused = false) :
    u.pause ev
      = { self := { u with paused := true }, trace := [], result := .error JsError.TypeError } := by
  simp [BaseTween.pause, hp, hc]

theorem BaseTween.resume_of_released (ev : TweenEvents) (u : BaseTween)
    (hc : u.callbacks = none) (hp : u.paused = true) :
    u.resume ev
      = { self := { u with paused := false }, trace := [],
          result := .error JsError.TypeError } := by
  simp [BaseTween.resume, hp, hc]

theorem BaseTween.setCallback_of_released (u : BaseTween) (hc : u.callbacks = none)
    (name : String) (fn : Nat) (params : Option (List JsVal)) (scope : JsVal) :
    u.setCallback name fn params scope
      = { self := u, trace := [], result := .error JsError.TypeError } := by
  simp [BaseTween.setCallback, hc]

theorem BaseTween.makeActive_of_released (ev : TweenEvents) (u : BaseTween)
    (hp : u.parent = none) :
    u.makeActive ev = { self := u, trace := [], result := .error JsError.TypeError } := by
  simp [BaseTween.makeActive, hp]

/-- C10, the claim as stated fails: on the destroyed sample unit `pause()` turns `paused` from
false to true and `setTimeScale(2)` turns `timeScale` from 1 to 2, and on the sample unit
paused and then destroyed `resume()` turns `paused` from true to false, so each of the three
calls leaves a unit different from the one it was made on. -/
theorem destroyed_frame_counterexample :
    sampleUnit.destroy.self.Destroyed ∧
      sampleUnit.destroy.self.paused = false ∧
      (sampleUnit.destroy.self.pause sampleEvents).self.paused = true ∧
      (sampleUnit.destroy.self.pause sampleEvents).self ≠ sampleUnit.destroy.self ∧
      sampleUnit.destroy.self.timeScale = 1 ∧
      (sampleUnit.destroy.self.setTimeScale 2).self.timeScale = 2 ∧
      (sampleUnit.destroy.self.setTimeScale 2).self ≠ sampleUnit.destroy.self ∧
      (sampleUnit.pause sampleEvents).self.destroy.self.Destroyed ∧
      (sampleUnit.pause sampleEvents).self.destroy.self.paused = true ∧
      ((sampleUnit.pause sampleEvents).self.destroy.self.resume sampleEvents).self.paused
        = false ∧
      ((sampleUnit.pause sampleEvents).self.destroy.self.resume sampleEvents).self
        ≠ (sampleUnit.pause sampleEvents).self.destroy.self :=
  ⟨by decide, rfl, rfl,
    fun h => Bool.noConfusion (congrArg BaseTween.paused h),
    rfl, rfl,
    fun h => absurd (congrArg BaseTween.timeScale h) (by
      show (2 : Rat) ≠ 1
      norm_num),
    by decide, rfl, rfl,
    fun h => Bool.noConfusion (congrArg BaseTween.paused h)⟩

/-- C10 as amended: on a destroyed unit `setCallback` and `makeActive` leave every field as
it was; `pause()` leaves the unit with `paused` true and `resume()` with `paused` false, every
other field as it was, so neither changes anything when the flag already has that value;
`setTimeScale(v)` leaves the unit with `timeScale` equal to `v` and every other field as it
was. -/
theorem destroyed_frame (ev : TweenEvents) (u : BaseTween) (h : u.Destroyed) (name : String)
    (fn : Nat) (params : Option (List JsVal)) (scope : JsVal) (v : Rat) :
    (u.setCallback name fn params scope).self = u ∧
    (u.makeActive ev).self = u ∧
    (u.pause ev).self = { u with paused := true } ∧
    (u.resume ev).self = { u with paused := false } ∧
    (u.paused = true → (u.pause ev).self = u) ∧
    (u.paused = false → (u.resume ev).self = u) ∧
    (u.setTimeScale v).self = { u with timeScale := v } := by
  obtain ⟨_, hp, hc⟩ := h
  rw [u.setCallback_of_released hc, u.makeActive_of_released ev hp]
  refine ⟨rfl, rfl, ?_, ?_, ?_, ?_, rfl⟩
  · cases hpa : u.paused with
    | true =>
      rw [u.pause_of_paused ev hpa]
      simp only [← hpa]
    | false => rw [u.pause_of_released ev hc hpa]
  · cases hpa : u.paused with
    | false =>
      rw [u.resume_of_unpaused ev hpa]
      simp only [← hpa]
    | true => rw [u.resume_of_released ev hc hpa]
  · intro hpa
    rw [u.pause_of_paused ev hpa]
  · intro hpa
    rw [u.resume_of_unpaused ev hpa]

/-- Witness for C10 as amended, on the destroyed sample unit. -/
theorem destroyed_frame_witness :
    sampleUnit.destroy.self.Destroyed ∧
      (sampleUnit.destroy.self.setCallback "onPause" 40 none JsVal.undefined).self
        = sampleUnit.destroy.self ∧
      (sampleUnit.destroy.self.makeActive sampleEvents).self = sampleUnit.destroy.self ∧
      (sampleUnit.destroy.self.resume sampleEvents).self = sampleUnit.destroy.self :=
  ⟨by decide,
    (destroyed_frame sampleEvents sampleUnit.destroy.self (by decide) "onPause" 40 none
      JsVal.undefined 2).1,
    (destroyed_frame sampleEvents sampleUnit.destroy.self (by decide) "onPause" 40 none
      JsVal.undefined 2).2.1,
    (destroyed_frame sampleEvents sampleUnit.destroy.self (by decide) "onPause" 40 none
      JsVal.undefined 2).2.2.2.2.2.1 rfl⟩

/-! ## Sequences of calls -/

theorem BaseTween.setCallback_live (u : BaseTween) (h : u.Live) (name : String) (fn : Nat)
    (params : Option (List JsVal)) (scope : JsVal) :
    (u.setCallback name fn params scope).self.Live := by
  obtain ⟨t, hc, hk⟩ := h.table
  cases hb : t.hasOwnProperty name with
  | false =>
    rw [u.setCallback_of_absent t hc name hb]
    exact h
  | true =>
    rw [u.setCallback_of_present t hc name hb]
    refine ⟨h.1, ?_⟩
    simp [BaseTween.hasCallbackTable, TweenCallbacks.keys_set t name _ hb, hk]

theorem BaseTween.makeActive_of_table (ev : TweenEvents) (u : BaseTween) (p : Nat)
    (t : TweenCallbacks) (hp : u.parent = some p) (hc : u.callbacks = some t) :
    u.makeActive ev =
      { self := { u with listeners := listenersAfter u.listeners ev.TWEEN_ACTIVE },
        trace := Effect.parentMakeActive p JsVal.this
          :: Effect.emit ev.TWEEN_ACTIVE [JsVal.this]
          :: (listenerTrace u.listeners ev.TWEEN_ACTIVE [JsVal.this]
              ++ handlerTrace (t.get "onActive")),
        result := .ok Ret.undefined } := by
  simp [BaseTween.makeActive, hp, hc, BaseTween.dispatchEvent_eq]

theorem BaseTween.makeActive_live (ev : TweenEvents) (u : BaseTween) (h : u.Live) :
    (u.makeActive ev).self.Live := by
  obtain ⟨t, hc, hk⟩ := h.table
  cases hp : u.parent with
  | none =>
    rw [u.makeActive_of_released ev hp]
    exact h
  | some p =>
    rw [u.makeActive_of_table ev p t hp hc]
    exact ⟨h.1, by simpa [BaseTween.hasCallbackTable, hc] using hk⟩

theorem BaseTween.call_live (ev : TweenEvents) (u : BaseTween) (h : u.Live) (c : Call)
    (hc : c ≠ Call.destroy) : (u.call ev c).self.Live := by
  cases c with
  | pause => exact u.pause_live ev h
  | resume => exact u.resume_live ev h
  | setCallback type callback params scope => exact u.setCallback_live h type callback params scope
  | setTimeScale value => exact u.setTimeScale_live value h
  | makeActive => exact u.makeActive_live ev h
  | destroy => exact absurd rfl hc

theorem BaseTween.run_live (ev : TweenEvents) (cs : List Call) :
    ∀ u : BaseTween, u.Live → Call.destroy ∉ cs → (BaseTween.run ev u cs).1.Live := by
  induction cs with
  | nil =>
    intro u h _
    exact h
  | cons c cs ih =>
    intro u h hcs
    have h1 : c ≠ Call.destroy := fun e => hcs (by simp [e])
    have h2 : Call.destroy ∉ cs := fun e => hcs (List.mem_cons_of_mem _ e)
    exact ih _ (u.call_live ev h c h1) h2

theorem BaseTween.call_destroyed (ev : TweenEvents) (u : BaseTween) (h : u.Destroyed)
    (c : Call) : (u.call ev c).self.Destroyed ∧ (u.call ev c).trace = [] := by
  obtain ⟨hs, hp, hc⟩ := h
  cases c with
  | pause =>
    show (u.pause ev).self.Destroyed ∧ (u.pause ev).trace = []
    cases hpa : u.paused with
    | true =>
      rw [u.pause_of_paused ev hpa]
      exact ⟨⟨hs, hp, hc⟩, rfl⟩
    | false =>
      rw [u.pause_of_released ev hc hpa]
      exact ⟨⟨hs, hp, hc⟩, rfl⟩
  | resume =>
    show (u.resume ev).self.Destroyed ∧ (u.resume ev).trace = []
    cases hpa : u.paused with
    | false =>
      rw [u.resume_of_unpaused ev hpa]
      exact ⟨⟨hs, hp, hc⟩, rfl⟩
    | true =>
      rw [u.resume_of_released ev hc hpa]
      exact ⟨⟨hs, hp, hc⟩, rfl⟩
  | setCallback type callback params scope =>
    show (u.setCallback type callback params scope).self.Destroyed
      ∧ (u.setCallback type callback params scope).trace = []
    rw [u.setCallback_of_released hc]
    exact ⟨⟨hs, hp, hc⟩, rfl⟩
  | setTimeScale value => exact ⟨⟨hs, hp, hc⟩, rfl⟩
  | makeActive =>
    show (u.makeActive ev).self.Destroyed ∧ (u.makeActive ev).trace = []
    rw [u.makeActive_of_released ev hp]
    exact ⟨⟨hs, hp, hc⟩, rfl⟩
  | destroy => exact ⟨⟨rfl, rfl, rfl⟩, rfl⟩

theorem BaseTween.run_destroyed (ev : TweenEvents) (cs : List Call) :
    ∀ u : BaseTween, u.Destroyed →
      (BaseTween.run ev u cs).1.Destroyed ∧ (BaseTween.run ev u cs).2 = [] := by
  induction cs with
  | nil =>
    intro u h
    exact ⟨h, rfl⟩
  | cons c cs ih =>
    intro u h
    obtain ⟨h1, h2⟩ := u.call_destroyed ev h c
    obtain ⟨h3, h4⟩ := ih _ h1
    refine ⟨h3, ?_⟩
    show (u.call ev c).trace ++ (BaseTween.run ev (u.call ev c).self cs).2 = []
    rw [h2, h4]
    rfl

theorem BaseTween.pause_result_live (ev : TweenEvents) (u : BaseTween) (h : u.Live) :
    (u.pause ev).result = .ok Ret.this := by
  obtain ⟨t, hc, _⟩ := h.table
  cases hp : u.paused with
  | true => rw [u.pause_of_paused ev hp]
  | false => rw [u.pause_of_table ev t hc hp]

theorem BaseTween.resume_result_live (ev : TweenEvents) (u : BaseTween) (h : u.Live) :
    (u.resume ev).result = .ok Ret.this := by
  obtain ⟨t, hc, _⟩ := h.table
  cases hp : u.paused with
  | false => rw [u.resume_of_unpaused ev hp]
  | true => rw [u.resume_of_table ev t hc hp]

theorem BaseTween.setCallback_result_live (u : BaseTween) (h : u.Live) (name : String)
    (fn : Nat) (params : Option (List JsVal)) (scope : JsVal) :
    (u.setCallback name fn params scope).result = .ok Ret.this := by
  obtain ⟨t, hc, _⟩ := h.table
  cases hb : t.hasOwnProperty name with
  | false => rw [u.setCallback_of_absent t hc name hb]
  | true => rw [u.setCallback_of_present t hc name hb]

/-- C11, the claim as stated fails: after `destroy()` on a fresh unit `pause()` and
`setCallback('onPause', fn)` raise a TypeError, and after `pause()` then `destroy()` so does
`resume()`. -/
theorem control_methods_total_counterexample :
    ((BaseTween.run sampleEvents (BaseTween.construct (some 7) none)
        [Call.destroy]).1.pause sampleEvents).result = .error JsError.TypeError ∧
      ((BaseTween.run sampleEvents (BaseTween.construct (some 7) none)
        [Call.destroy]).1.setCallback "onPause" 40 none JsVal.undefined).result
        = .error JsError.TypeError ∧
      ((BaseTween.run sampleEvents (BaseTween.construct (some 7) none)
        [Call.pause, Call.destroy]).1.resume sampleEvents).result = .error JsError.TypeError :=
  ⟨rfl, rfl, rfl⟩

/-- C11 as amended: on every unit reached from the constructor by a sequence of calls that
does not contain `destroy`, `pause()`, `resume()` and `setCallback` return the unit without
raising, and are no-ops when the unit is already paused, not paused, or the name is not a
lifecycle name; on every unit reached by any sequence of calls, `destroy` included, `pause()`
on a paused unit and `resume()` on an unpaused unit return without raising and change
nothing. -/
theorem control_methods_total (ev : TweenEvents) (parent : Option Nat)
    (data : Option (List Nat)) (cs cs2 : List Call) (hcs : Call.destroy ∉ cs) (name : String)
    (fn : Nat) (params : Option (List JsVal)) (scope : JsVal) :
    (∀ u, u = (BaseTween.run ev (BaseTween.construct parent data) cs).1 →
      (u.pause ev).result = .ok Ret.this ∧
      (u.resume ev).result = .ok Ret.this ∧
      (u.setCallback name fn params scope).result = .ok Ret.this ∧
      (name ∉ BaseTween.TYPES →
        (u.setCallback name fn params scope).self = u ∧
        (u.setCallback name fn params scope).trace = [])) ∧
    (∀ v, v = (BaseTween.run ev (BaseTween.construct parent data) cs2).1 →
      (v.paused = true →
        (v.pause ev).result = .ok Ret.this ∧ (v.pause ev).self = v ∧ (v.pause ev).trace = []) ∧
      (v.paused = false →
        (v.resume ev).result = .ok Ret.this ∧ (v.resume ev).self = v ∧
        (v.resume ev).trace = [])) := by
  constructor
  · intro u hu
    have hl : u.Live := by
      rw [hu]
      exact BaseTween.run_live ev cs _ (BaseTween.construct_live parent data) hcs
    refine ⟨u.pause_result_live ev hl, u.resume_result_live ev hl,
      u.setCallback_result_live hl name fn params scope, ?_⟩
    intro hn
    obtain ⟨t, hc, _⟩ := hl.table
    have hno : t.hasOwnProperty name = false := by
      cases hb : t.hasOwnProperty name with
      | false => rfl
      | true => exact absurd ((hl.ownKey_iff t hc name).mp hb) hn
    rw [u.setCallback_of_absent t hc name hno]
    exact ⟨rfl, rfl⟩
  · intro v _
    constructor
    · intro hp
      rw [v.pause_of_paused ev hp]
      exact ⟨rfl, rfl, rfl⟩
    · intro hp
      rw [v.resume_of_unpaused ev hp]
      exact ⟨rfl, rfl, rfl⟩

/-- Witness for C11 as amended: the sample calls contain no `destroy`, and the three methods
return normally on the unit they lead to. -/
theorem control_methods_total_witness :
    Call.destroy ∉ sampleCalls ∧
      ((BaseTween.run sampleEvents (BaseTween.construct (some 7) none) sampleCalls).1.pause
        sampleEvents).result = .ok Ret.this ∧
      ((BaseTween.run sampleEvents (BaseTween.construct (some 7) none) sampleCalls).1.resume
        sampleEvents).result = .ok Ret.this ∧
      ((BaseTween.run sampleEvents (BaseTween.construct (some 7) none)
        sampleCalls).1.setCallback "onStop" 41 none JsVal.undefined).result = .ok Ret.this :=
  ⟨by decide,
    ((control_methods_total sampleEvents (some 7) none sampleCalls [Call.destroy] (by decide)
      "onStop" 41 none JsVal.undefined).1 _ rfl).1,
    ((control_methods_total sampleEvents (some 7) none sampleCalls [Call.destroy] (by decide)
      "onStop" 41 none JsVal.undefined).1 _ rfl).2.1,
    ((control_methods_total sampleEvents (some 7) none sampleCalls [Call.destroy] (by decide)
      "onStop" 41 none JsVal.undefined).1 _ rfl).2.2.1⟩

/-- C12: after `destroy()`, whatever handlers and listeners the unit had, any sequence of
`pause`, `resume`, `makeActive`, `setCallback` (and `setTimeScale`, `destroy`) calls has an
empty trace: no handler is invoked, no listener is notified and no event is emitted, whether
the calls return or raise. -/
theorem no_dispatch_after_destroy (ev : TweenEvents) (u : BaseTween) (cs : List Call) :
    (BaseTween.run ev u.destroy.self cs).2 = [] ∧
    handlerCalls (BaseTween.run ev u.destroy.self cs).2 = [] ∧
    deliveries (BaseTween.run ev u.destroy.self cs).2 = [] ∧
    emissions (BaseTween.run ev u.destroy.self cs).2 = [] ∧
    (BaseTween.run ev u.destroy.self cs).1.Destroyed := by
  obtain ⟨h1, h2⟩ := BaseTween.run_destroyed ev cs _ u.destroy_destroyed
  rw [h2]
  exact ⟨rfl, rfl, rfl, rfl, h1⟩

/-! ## Frame of the methods -/

/-- C13: `setTimeScale(v)` returns the unit with `timeScale` equal to `v`, so that
`getTimeScale()` returns `v`, changes no other field (`paused`, `state`, `duration`,
`totalDuration`, `elapsed`, `totalElapsed`, `callbacks` among them) and calls nothing; with
`v = 0` the `paused` flag keeps its value and no event is emitted. -/
theorem setTimeScale_frame (u : BaseTween) (v : Rat) :
    (u.setTimeScale v).result = .ok Ret.this ∧
    (u.setTimeScale v).self = { u with timeScale := v } ∧
    (u.setTimeScale v).self.timeScale = v ∧
    (u.setTimeScale v).self.getTimeScale = v ∧
    (u.setTimeScale v).trace = [] ∧
    (u.setTimeScale v).self.paused = u.paused ∧
    (u.setTimeScale v).self.state = u.state ∧
    (u.setTimeScale v).self.duration = u.duration ∧
    (u.setTimeScale v).self.totalDuration = u.totalDuration ∧
    (u.setTimeScale v).self.elapsed = u.elapsed ∧
    (u.setTimeScale v).self.totalElapsed = u.totalElapsed ∧
    (u.setTimeScale v).self.callbacks = u.callbacks ∧
    (u.setTimeScale 0).self.paused = u.paused ∧
    emissions (u.setTimeScale 0).trace = [] ∧
    handlerCalls (u.setTimeScale 0).trace = [] :=
  ⟨rfl, rfl, rfl, rfl, rfl, rfl, rfl, rfl, rfl, rfl, rfl, rfl, rfl, rfl, rfl⟩

theorem parentCalls_listenerTrace (ls : List Listener) (event : String) (args : List JsVal) :
    parentCalls (listenerTrace ls event args) = [] := by
  unfold parentCalls listenerTrace
  rw [List.filter_eq_nil_iff]
  intro e he
  obtain ⟨l, _, rfl⟩ := List.mem_map.mp he
  simp [Effect.isParentCall]

theorem parentCalls_handlerTrace (cb : Option TweenCallback) :
    parentCalls (handlerTrace cb) = [] := by
  cases cb <;> rfl

theorem parentCalls_dispatch (ls : List Listener) (event : String) (args : List JsVal)
    (cb : Option TweenCallback) :
    parentCalls (Effect.emit event args :: (listenerTrace ls event args ++ handlerTrace cb))
      = [] := by
  have h1 := parentCalls_listenerTrace ls event args
  have h2 := parentCalls_handlerTrace cb
  unfold parentCalls at h1 h2 ⊢
  rw [List.filter_cons_of_neg (by simp [Effect.isParentCall]), List.filter_append, h1, h2]
  rfl

/-- C14: on a live unit with a manager, `makeActive()` calls `parent.makeActive` once with
the unit as argument and then dispatches the active transition once: one emission of the
active event followed by one invocation of the `onActive` handler when one is registered. The
manager is called first and nothing else is emitted or invoked. -/
theorem makeActive_contract (ev : TweenEvents) (u : BaseTween) (h : u.Live) (p : Nat)
    (hp : u.parent = some p) :
    (u.makeActive ev).trace
      = Effect.parentMakeActive p JsVal.this
          :: Effect.emit ev.TWEEN_ACTIVE [JsVal.this]
          :: (listenerTrace u.listeners ev.TWEEN_ACTIVE [JsVal.this]
              ++ handlerTrace (u.handler "onActive")) ∧
    parentCalls (u.makeActive ev).trace = [Effect.parentMakeActive p JsVal.this] ∧
    emissions (u.makeActive ev).trace = [Effect.emit ev.TWEEN_ACTIVE [JsVal.this]] ∧
    handlerCalls (u.makeActive ev).trace = handlerTrace (u.handler "onActive") ∧
    (u.makeActive ev).trace.head? = some (Effect.parentMakeActive p JsVal.this) ∧
    (u.makeActive ev).result = .ok Ret.undefined := by
  obtain ⟨t, hc, _⟩ := h.table
  have hh : u.handler "onActive" = t.get "onActive" := u.handler_of_table t hc _
  rw [u.makeActive_of_table ev p t hp hc, hh]
  refine ⟨rfl, ?_, ?_, ?_, rfl, rfl⟩
  · show parentCalls (_ :: _) = _
    unfold parentCalls
    rw [List.filter_cons_of_pos (by rfl)]
    have := parentCalls_dispatch u.listeners ev.TWEEN_ACTIVE [JsVal.this] (t.get "onActive")
    unfold parentCalls at this
    rw [this]
  · show emissions (_ :: _) = _
    unfold emissions
    rw [List.filter_cons_of_neg (by simp [Effect.isEmit])]
    exact emissions_dispatch _ _ _ _
  · show handlerCalls (_ :: _) = _
    unfold handlerCalls
    rw [List.filter_cons_of_neg (by simp [Effect.isApply])]
    exact handlerCalls_dispatch _ _ _ _

/-- Witness for C14 on the sample unit, whose manager is object 7 and which has no `onActive`
handler. -/
theorem makeActive_contract_witness :
    sampleUnit.Live ∧ sampleUnit.parent = some 7 ∧
      (sampleUnit.makeActive sampleEvents).trace
        = [Effect.parentMakeActive 7 JsVal.this, Effect.emit "active" [JsVal.this]] :=
  ⟨by decide, rfl,
    (makeActive_contract sampleEvents sampleUnit (by decide) 7 rfl).1.trans (by decide)⟩

theorem BaseTween.pause_self (ev : TweenEvents) (u : BaseTween) :
    (u.pause ev).self
      = { u with paused := (u.pause ev).self.paused,
                 listeners := (u.pause ev).self.listeners } := by
  cases hp : u.paused with
  | true =>
    rw [u.pause_of_paused ev hp]
  | false =>
    cases hc : u.callbacks with
    | none =>
      rw [u.pause_of_released ev hc hp]
      simp [hc]
    | some t =>
      rw [u.pause_of_table ev t hc hp]
      simp [hc]

theorem BaseTween.resume_self (ev : TweenEvents) (u : BaseTween) :
    (u.resume ev).self
      = { u with paused := (u.resume ev).self.paused,
                 listeners := (u.resume ev).self.listeners } := by
  cases hp : u.paused with
  | false =>
    rw [u.resume_of_unpaused ev hp]
  | true =>
    cases hc : u.callbacks with
    | none =>
      rw [u.resume_of_released ev hc hp]
      simp [hc]
    | some t =>
      rw [u.resume_of_table ev t hc hp]
      simp [hc]

theorem BaseTween.fields_of_flag_update (u r : BaseTween) (a : Bool) (b : List Listener)
    (h : r = { u with paused := a, listeners := b }) :
    r.state = u.state ∧ r.elapsed = u.elapsed ∧ r.totalElapsed = u.totalElapsed ∧
    r.progress = u.progress ∧ r.totalProgress = u.totalProgress ∧
    r.countdown = u.countdown ∧ r.loopCounter = u.loopCounter ∧ r.timeScale = u.timeScale ∧
    r.duration = u.duration ∧ r.totalDuration = u.totalDuration ∧
    r.callbacks = u.callbacks := by
  subst h
  exact ⟨rfl, rfl, rfl, rfl, rfl, rfl, rfl, rfl, rfl, rfl, rfl⟩

/-- C15: `pause()` and `resume()` leave `state`, `elapsed`, `totalElapsed`, `progress`,
`totalProgress`, `countdown`, `loopCounter`, `timeScale`, `duration`, `totalDuration` and the
callbacks object unchanged, on every unit; of the fields set by the constructor only `paused`
can differ after the call (the subscription table of the emitter can lose the listeners
subscribed with `once`). -/
theorem pause_resume_frame (ev : TweenEvents) (u : BaseTween) :
    ((u.pause ev).self.state = u.state ∧ (u.pause ev).self.elapsed = u.elapsed ∧
      (u.pause ev).self.totalElapsed = u.totalElapsed ∧
      (u.pause ev).self.progress = u.progress ∧
      (u.pause ev).self.totalProgress = u.totalProgress ∧
      (u.pause ev).self.countdown = u.countdown ∧
      (u.pause ev).self.loopCounter = u.loopCounter ∧
      (u.pause ev).self.timeScale = u.timeScale ∧
      (u.pause ev).self.duration = u.duration ∧
      (u.pause ev).self.totalDuration = u.totalDuration ∧
      (u.pause ev).self.callbacks = u.callbacks) ∧
    ((u.resume ev).self.state = u.state ∧ (u.resume ev).self.elapsed = u.elapsed ∧
      (u.resume ev).self.totalElapsed = u.totalElapsed ∧
      (u.resume ev).self.progress = u.progress ∧
      (u.resume ev).self.totalProgress = u.totalProgress ∧
      (u.resume ev).self.countdown = u.countdown ∧
      (u.resume ev).self.loopCounter = u.loopCounter ∧
      (u.resume ev).self.timeScale = u.timeScale ∧
      (u.resume ev).self.duration = u.duration ∧
      (u.resume ev).self.totalDuration = u.totalDuration ∧
      (u.resume ev).self.callbacks = u.callbacks) ∧
    (u.pause ev).self
      = { u with paused := (u.pause ev).self.paused,
                 listeners := (u.pause ev).self.listeners } ∧
    (u.resume ev).self
      = { u with paused := (u.resume ev).self.paused,
                 listeners := (u.resume ev).self.listeners } :=
  ⟨BaseTween.fields_of_flag_update u _ _ _ (u.pause_self ev),
    BaseTween.fields_of_flag_update u _ _ _ (u.resume_self ev),
    u.pause_self ev, u.resume_self ev⟩

/-! ## The data-model invariant -/

theorem BaseTween.Invariant.of_sameCounters {r u : BaseTween} (h : u.Invariant)
    (hs : r.SameCounters u) : r.Invariant := by
  obtain ⟨h1, h2, h3, h4, h5⟩ := hs
  unfold BaseTween.Invariant at h ⊢
  rw [h1, h2, h3, h4, h5]
  exact h

theorem BaseTween.sameCounters_of_flag_update (u r : BaseTween) (a : Bool)
    (b : List Listener) (h : r = { u with paused := a, listeners := b }) :
    r.SameCounters u := by
  subst h
  exact ⟨rfl, rfl, rfl, rfl, rfl⟩

theorem BaseTween.dispatchEvent_sameCounters (u : BaseTween) (event : String)
    (cb : Option TweenCallback) : (u.dispatchEvent event cb).self.SameCounters u := by
  rw [u.dispatchEvent_eq]
  exact ⟨rfl, rfl, rfl, rfl, rfl⟩

theorem BaseTween.makeActive_sameCounters (ev : TweenEvents) (u : BaseTween) :
    (u.makeActive ev).self.SameCounters u := by
  cases hp : u.parent with
  | none =>
    rw [u.makeActive_of_released ev hp]
    exact ⟨rfl, rfl, rfl, rfl, rfl⟩
  | some p =>
    cases hc : u.callbacks with
    | none =>
      simp only [BaseTween.makeActive, hp, hc]
      exact ⟨rfl, rfl, rfl, rfl, rfl⟩
    | some t =>
      rw [u.makeActive_of_table ev p t hp hc]
      exact ⟨rfl, rfl, rfl, rfl, rfl⟩

theorem BaseTween.setCallback_sameCounters (u : BaseTween) (name : String) (fn : Nat)
    (params : Option (List JsVal)) (scope : JsVal) :
    (u.setCallback name fn params scope).self.SameCounters u := by
  cases hc : u.callbacks with
  | none =>
    rw [u.setCallback_of_released hc]
    exact ⟨rfl, rfl, rfl, rfl, rfl⟩
  | some t =>
    cases hb : t.hasOwnProperty name with
    | false =>
      rw [u.setCallback_of_absent t hc name hb]
      exact ⟨rfl, rfl, rfl, rfl, rfl⟩
    | true =>
      rw [u.setCallback_of_present t hc name hb]
      exact ⟨rfl, rfl, rfl, rfl, rfl⟩

/-- C16: a freshly constructed unit, for every track list and for the omitted one, has `state`
PENDING, `paused` false, `totalData` the length of `data` (zero for the omitted list),
`progress`, `totalProgress` and `countdown` zero, and satisfies the data-model invariant; the
invariant is kept by `setTimeScale`, `pause`, `resume`, `makeActive`, `dispatchEvent`,
`setCallback` and `destroy`. -/
theorem data_model_invariant (ev : TweenEvents) (u : BaseTween) (h : u.Invariant)
    (parent : Option Nat) (data : Option (List Nat)) (v : Rat) (event : String)
    (cb : Option TweenCallback) (name : String) (fn : Nat) (params : Option (List JsVal))
    (scope : JsVal) :
    ((BaseTween.construct parent data).state = TweenState.PENDING ∧
      (BaseTween.construct parent data).paused = false ∧
      (BaseTween.construct parent data).data = data.getD [] ∧
      (BaseTween.construct parent data).totalData
        = (BaseTween.construct parent data).data.length ∧
      (BaseTween.construct parent none).data = [] ∧
      (BaseTween.construct parent none).totalData = 0 ∧
      (BaseTween.construct parent data).progress = 0 ∧
      (BaseTween.construct parent data).totalProgress = 0 ∧
      (BaseTween.construct parent data).countdown = 0 ∧
      (BaseTween.construct parent data).Invariant) ∧
    (u.setTimeScale v).self.Invariant ∧
    (u.pause ev).self.Invariant ∧
    (u.resume ev).self.Invariant ∧
    (u.makeActive ev).self.Invariant ∧
    (u.dispatchEvent event cb).self.Invariant ∧
    (u.setCallback name fn params scope).self.Invariant ∧
    u.destroy.self.Invariant := by
  refine ⟨⟨rfl, rfl, rfl, rfl, rfl, rfl, rfl, rfl, rfl, ?_⟩, ?_, ?_, ?_, ?_, ?_, ?_, ?_⟩
  · refine ⟨rfl, ?_, ?_, ?_, ?_, ?_⟩ <;> simp [BaseTween.construct]
  · exact h.of_sameCounters ⟨rfl, rfl, rfl, rfl, rfl⟩
  · exact h.of_sameCounters (BaseTween.sameCounters_of_flag_update u _ _ _ (u.pause_self ev))
  · exact h.of_sameCounters (BaseTween.sameCounters_of_flag_update u _ _ _ (u.resume_self ev))
  · exact h.of_sameCounters (u.makeActive_sameCounters ev)
  · exact h.of_sameCounters (u.dispatchEvent_sameCounters event cb)
  · exact h.of_sameCounters (u.setCallback_sameCounters name fn params scope)
  · exact h.of_sameCounters ⟨rfl, rfl, rfl, rfl, rfl⟩

theorem sampleUnit_invariant : sampleUnit.Invariant := by
  refine ⟨rfl, ?_, ?_, ?_, ?_, ?_⟩ <;> simp [sampleUnit, BaseTween.construct]

/-- Witness for C16 on the sample unit, which satisfies the invariant. -/
theorem data_model_invariant_witness :
    sampleUnit.Invariant ∧ (sampleUnit.pause sampleEvents).self.Invariant ∧
      sampleUnit.destroy.self.Invariant :=
  ⟨sampleUnit_invariant,
    (data_model_invariant sampleEvents sampleUnit sampleUnit_invariant none none 2 "pause" none
      "onPause" 40 none JsVal.undefined).2.2.1,
    (data_model_invariant sampleEvents sampleUnit sampleUnit_invariant none none 2 "pause" none
      "onPause" 40 none JsVal.undefined).2.2.2.2.2.2.2⟩

/-- C17: `isPaused()` returns the `paused` field as it is, on every unit and in every state,
a destroyed unit included; it is true after `pause()` and false after `resume()` whatever the
state of the unit. -/
theorem isPaused_verbatim (ev : TweenEvents) (u : BaseTween) :
    u.isPaused = u.paused ∧
    u.destroy.self.isPaused = u.paused ∧
    (u.pause ev).self.isPaused = true ∧
    (u.resume ev).self.isPaused = false := by
  refine ⟨rfl, rfl, ?_, ?_⟩
  · cases hp : u.paused with
    | true =>
      rw [u.pause_of_paused ev hp]
      exact hp
    | false =>
      cases hc : u.callbacks with
      | none => rw [u.pause_of_released ev hc hp]; rfl
      | some t => rw [u.pause_of_table ev t hc hp]; rfl
  · cases hp : u.paused with
    | false =>
      rw [u.resume_of_unpaused ev hp]
      exact hp
    | true =>
      cases hc : u.callbacks with
      | none => rw [u.resume_of_released ev hc hp]; rfl
      | some t => rw [u.resume_of_table ev t hc hp]; rfl

/-! ## Round trip of pause and resume -/

theorem listenersAfter_of_no_once (ls : List Listener) (event : String)
    (h : ∀ l ∈ ls, l.once = false) : listenersAfter ls event = ls := by
  unfold listenersAfter
  rw [List.filter_eq_self]
  intro l hl
  simp [h l hl]

theorem BaseTween.pause_resume_eq (ev : TweenEvents) (u : BaseTween) (t : TweenCallbacks)
    (hc : u.callbacks = some t) (hp : u.paused = false) :
    (u.pause ev).self.resume ev =
      { self := { u with
          listeners := listenersAfter (listenersAfter u.listeners ev.TWEEN_PAUSE) ev.TWEEN_RESUME },
        trace := Effect.emit ev.TWEEN_RESUME [JsVal.this]
          :: (listenerTrace (listenersAfter u.listeners ev.TWEEN_PAUSE) ev.TWEEN_RESUME
                [JsVal.this]
              ++ handlerTrace (t.get "onResume")),
        result := .ok Ret.this } := by
  rw [u.pause_of_table ev t hc hp]
  have h2 := BaseTween.resume_of_table ev
    { u with paused := true, listeners := listenersAfter u.listeners ev.TWEEN_PAUSE } t hc rfl
  dsimp only at h2 ⊢
  rw [h2]
  simp [hp]

theorem BaseTween.resume_pause_eq (ev : TweenEvents) (u : BaseTween) (t : TweenCallbacks)
    (hc : u.callbacks = some t) (hp : u.paused = true) :
    (u.resume ev).self.pause ev =
      { self := { u with
          listeners := listenersAfter (listenersAfter u.listeners ev.TWEEN_RESUME) ev.TWEEN_PAUSE },
        trace := Effect.emit ev.TWEEN_PAUSE [JsVal.this]
          :: (listenerTrace (listenersAfter u.listeners ev.TWEEN_RESUME) ev.TWEEN_PAUSE
                [JsVal.this]
              ++ handlerTrace (t.get "onPause")),
        result := .ok Ret.this } := by
  rw [u.resume_of_table ev t hc hp]
  have h2 := BaseTween.pause_of_table ev
    { u with paused := false, listeners := listenersAfter u.listeners ev.TWEEN_RESUME } t hc rfl
  dsimp only at h2 ⊢
  rw [h2]
  simp [hp]

theorem emissions_two_dispatches (l1 l2 : List Listener) (e1 e2 : String)
    (c1 c2 : Option TweenCallback) :
    emissions ((Effect.emit e1 [JsVal.this] :: (listenerTrace l1 e1 [JsVal.this]
        ++ handlerTrace c1))
      ++ (Effect.emit e2 [JsVal.this] :: (listenerTrace l2 e2 [JsVal.this]
        ++ handlerTrace c2)))
      = [Effect.emit e1 [JsVal.this], Effect.emit e2 [JsVal.this]] := by
  have h1 := emissions_dispatch l1 e1 [JsVal.this] c1
  have h2 := emissions_dispatch l2 e2 [JsVal.this] c2
  unfold emissions at h1 h2 ⊢
  rw [List.filter_append, h1, h2]
  rfl

theorem handlerCalls_two_dispatches (l1 l2 : List Listener) (e1 e2 : String)
    (c1 c2 : Option TweenCallback) :
    handlerCalls ((Effect.emit e1 [JsVal.this] :: (listenerTrace l1 e1 [JsVal.this]
        ++ handlerTrace c1))
      ++ (Effect.emit e2 [JsVal.this] :: (listenerTrace l2 e2 [JsVal.this]
        ++ handlerTrace c2)))
      = handlerTrace c1 ++ handlerTrace c2 := by
  have h1 := handlerCalls_dispatch l1 e1 [JsVal.this] c1
  have h2 := handlerCalls_dispatch l2 e2 [JsVal.this] c2
  unfold handlerCalls at h1 h2 ⊢
  rw [List.filter_append, h1, h2]

/-- C20: on a live unit that is not paused, `pause()` followed by `resume()` leaves every
field set by the constructor at its original value (the unit itself when no listener was
subscribed with `once`), and the trace is the pause emission, the `onPause` handler when
registered, the resume emission, the `onResume` handler when registered, in that order, each
emission with its deliveries to the listeners; on a live paused unit `resume()` followed by
`pause()` does the same with resume first. -/
theorem pause_resume_round_trip (ev : TweenEvents) (u : BaseTween) (h : u.Live) :
    (u.paused = false →
      ((u.pause ev).self.resume ev).self
        = { u with
          listeners := listenersAfter (listenersAfter u.listeners ev.TWEEN_PAUSE) ev.TWEEN_RESUME } ∧
      ((∀ l ∈ u.listeners, l.once = false) → ((u.pause ev).self.resume ev).self = u) ∧
      (u.pause ev).trace ++ ((u.pause ev).self.resume ev).trace
        = (Effect.emit ev.TWEEN_PAUSE [JsVal.this]
            :: (listenerTrace u.listeners ev.TWEEN_PAUSE [JsVal.this]
                ++ handlerTrace (u.handler "onPause")))
          ++ (Effect.emit ev.TWEEN_RESUME [JsVal.this]
            :: (listenerTrace (listenersAfter u.listeners ev.TWEEN_PAUSE) ev.TWEEN_RESUME
                  [JsVal.this]
                ++ handlerTrace (u.handler "onResume"))) ∧
      (u.listeners = [] →
        (u.pause ev).trace ++ ((u.pause ev).self.resume ev).trace
          = (Effect.emit ev.TWEEN_PAUSE [JsVal.this] :: handlerTrace (u.handler "onPause"))
            ++ (Effect.emit ev.TWEEN_RESUME [JsVal.this]
              :: handlerTrace (u.handler "onResume"))) ∧
      emissions ((u.pause ev).trace ++ ((u.pause ev).self.resume ev).trace)
        = [Effect.emit ev.TWEEN_PAUSE [JsVal.this], Effect.emit ev.TWEEN_RESUME [JsVal.this]] ∧
      handlerCalls ((u.pause ev).trace ++ ((u.pause ev).self.resume ev).trace)
        = handlerTrace (u.handler "onPause") ++ handlerTrace (u.handler "onResume")) ∧
    (u.paused = true →
      ((u.resume ev).self.pause ev).self
        = { u with
          listeners := listenersAfter (listenersAfter u.listeners ev.TWEEN_RESUME) ev.TWEEN_PAUSE } ∧
      ((∀ l ∈ u.listeners, l.once = false) → ((u.resume ev).self.pause ev).self = u) ∧
      (u.resume ev).trace ++ ((u.resume ev).self.pause ev).trace
        = (Effect.emit ev.TWEEN_RESUME [JsVal.this]
            :: (listenerTrace u.listeners ev.TWEEN_RESUME [JsVal.this]
                ++ handlerTrace (u.handler "onResume")))
          ++ (Effect.emit ev.TWEEN_PAUSE [JsVal.this]
            :: (listenerTrace (listenersAfter u.listeners ev.TWEEN_RESUME) ev.TWEEN_PAUSE
                  [JsVal.this]
                ++ handlerTrace (u.handler "onPause"))) ∧
      (u.listeners = [] →
        (u.resume ev).trace ++ ((u.resume ev).self.pause ev).trace
          = (Effect.emit ev.TWEEN_RESUME [JsVal.this] :: handlerTrace (u.handler "onResume"))
            ++ (Effect.emit ev.TWEEN_PAUSE [JsVal.this]
              :: handlerTrace (u.handler "onPause"))) ∧
      emissions ((u.resume ev).trace ++ ((u.resume ev).self.pause ev).trace)
        = [Effect.emit ev.TWEEN_RESUME [JsVal.this], Effect.emit ev.TWEEN_PAUSE [JsVal.this]] ∧
      handlerCalls ((u.resume ev).trace ++ ((u.resume ev).self.pause ev).trace)
        = handlerTrace (u.handler "onResume") ++ handlerTrace (u.handler "onPause")) := by
  obtain ⟨t, hc, _⟩ := h.table
  have hP : u.handler "onPause" = t.get "onPause" := u.handler_of_table t hc _
  have hR : u.handler "onResume" = t.get "onResume" := u.handler_of_table t hc _
  constructor
  · intro hp
    rw [u.pause_resume_eq ev t hc hp, u.pause_of_table ev t hc hp, hP, hR]
    refine ⟨rfl, ?_, rfl, ?_, emissions_two_dispatches _ _ _ _ _ _,
      handlerCalls_two_dispatches _ _ _ _ _ _⟩
    · intro hno
      have h1 := listenersAfter_of_no_once u.listeners ev.TWEEN_PAUSE hno
      have h2 := listenersAfter_of_no_once u.listeners ev.TWEEN_RESUME hno
      simp only [h1, h2]
    · intro hl
      simp [hl, listenerTrace, listenersAfter]
  · intro hp
    rw [u.resume_pause_eq ev t hc hp, u.resume_of_table ev t hc hp, hP, hR]
    refine ⟨rfl, ?_, rfl, ?_, emissions_two_dispatches _ _ _ _ _ _,
      handlerCalls_two_dispatches _ _ _ _ _ _⟩
    · intro hno
      have h1 := listenersAfter_of_no_once u.listeners ev.TWEEN_PAUSE hno
      have h2 := listenersAfter_of_no_once u.listeners ev.TWEEN_RESUME hno
      simp only [h1, h2]
    · intro hl
      simp [hl, listenerTrace, listenersAfter]

/-- Witness for C20 on the sample unit: live, unpaused, with both handlers and a listener
subscribed with `once` to the pause event. -/
theorem pause_resume_round_trip_witness :
    sampleUnit.Live ∧ sampleUnit.paused = false ∧
      handlerCalls ((sampleUnit.pause sampleEvents).trace
          ++ ((sampleUnit.pause sampleEvents).self.resume sampleEvents).trace)
        = [Effect.apply 21 (JsVal.func 21) [], Effect.apply 22 (JsVal.obj 5) [JsVal.num 1]] ∧
      emissions ((sampleUnit.pause sampleEvents).trace
          ++ ((sampleUnit.pause sampleEvents).self.resume sampleEvents).trace)
        = [Effect.emit "pause" [JsVal.this], Effect.emit "resume" [JsVal.this]] :=
  ⟨by decide, rfl,
    ((pause_resume_round_trip sampleEvents sampleUnit (by decide)).1 rfl).2.2.2.2.2.trans
      (by decide),
    ((pause_resume_round_trip sampleEvents sampleUnit (by decide)).1 rfl).2.2.2.2.1⟩

/-! ## The modelled playback run -/

theorem firedNames_listenerTrace (ls : List Listener) (event : String) (args : List JsVal) :
    firedNames (listenerTrace ls event args) = [] := by
  unfold firedNames listenerTrace
  rw [List.filterMap_eq_nil_iff]
  intro e he
  obtain ⟨l, _, rfl⟩ := List.mem_map.mp he
  rfl

theorem firedNames_handlerTrace (cb : Option TweenCallback) :
    firedNames (handlerTrace cb) = [] := by
  cases cb <;> rfl

theorem firedNames_append (a b : List Effect) :
    firedNames (a ++ b) = firedNames a ++ firedNames b := by
  unfold firedNames
  exact List.filterMap_append _ _ _

theorem BaseTween.fire_eq (u : BaseTween) (name : String) :
    u.fire name =
      { self := { u with listeners := listenersAfter u.listeners name },
        trace := Effect.emit name [JsVal.this]
          :: (listenerTrace u.listeners name [JsVal.this] ++ handlerTrace (u.handler name)),
        result := .ok Ret.undefined } := by
  unfold BaseTween.fire
  exact u.dispatchEvent_eq name _

theorem BaseTween.firedNames_fire (u : BaseTween) (name : String) :
    firedNames (u.fire name).trace = [name] := by
  rw [u.fire_eq]
  show firedNames ([Effect.emit name [JsVal.this]]
    ++ (listenerTrace u.listeners name [JsVal.this] ++ handlerTrace (u.handler name))) = [name]
  rw [firedNames_append, firedNames_append, firedNames_listenerTrace, firedNames_handlerTrace]
  rfl

theorem Playback.run_nil (p : Playback) : Playback.run p [] = (p, []) :=
  rfl

theorem Playback.run_cons (p : Playback) (delta : Rat) (rest : List Rat) :
    Playback.run p (delta :: rest)
      = ((Playback.run (p.tick delta).1 rest).1,
          (p.tick delta).2 ++ (Playback.run (p.tick delta).1 rest).2) :=
  rfl

theorem Playback.run_append (a : List Rat) :
    ∀ (p : Playback) (b : List Rat),
      Playback.run p (a ++ b)
        = ((Playback.run (Playback.run p a).1 b).1,
            (Playback.run p a).2 ++ (Playback.run (Playback.run p a).1 b).2) := by
  induction a with
  | nil =>
    intro p b
    simp [Playback.run_nil]
  | cons delta a ih =>
    intro p b
    rw [List.cons_append, Playback.run_cons, ih, Playback.run_cons]
    simp [List.append_assoc]

theorem Playback.stepActive_stay (u : BaseTween) (d : Rat) (h : ¬ u.duration ≤ u.elapsed + d) :
    Playback.stepActive u d =
      ({ unit := { u with elapsed := u.elapsed + d, totalElapsed := u.totalElapsed + d,
                          progress := clamp01 ((u.elapsed + d) / u.duration),
                          totalProgress := clamp01 ((u.totalElapsed + d) / u.totalDuration) },
         complete := false }, []) := by
  simp [Playback.stepActive, h]

theorem Playback.stepActive_loop (u : BaseTween) (d : Rat) (h : u.duration ≤ u.elapsed + d)
    (hl : u.loopCounter ≠ 0) :
    Playback.stepActive u d =
      ({ unit := { u with totalElapsed := u.totalElapsed + d,
                          progress := clamp01 ((u.elapsed + d) / u.duration),
                          totalProgress := clamp01 ((u.totalElapsed + d) / u.totalDuration),
                          loopCounter := if u.loopCounter = -1 then u.loopCounter
                            else u.loopCounter - 1,
                          elapsed := 0, countdown := u.loopDelay,
                          state := TweenState.LOOP_DELAY },
         complete := false }, []) := by
  simp [Playback.stepActive, h, hl]

theorem Playback.stepActive_done (u : BaseTween) (d : Rat) (h : u.duration ≤ u.elapsed + d)
    (hl : u.loopCounter = 0) :
    Playback.stepActive u d =
      ({ unit := { u with elapsed := u.elapsed + d, totalElapsed := u.totalElapsed + d,
                          progress := clamp01 ((u.elapsed + d) / u.duration),
                          totalProgress := clamp01 ((u.totalElapsed + d) / u.totalDuration),
                          countdown := u.completeDelay,
                          state := TweenState.COMPLETE_DELAY },
         complete := false }, []) := by
  simp [Playback.stepActive, h, hl]

theorem Playback.stepLoopDelay_stay (u : BaseTween) (d : Rat) (h : ¬ u.countdown - d ≤ 0) :
    Playback.stepLoopDelay u d =
      ({ unit := { u with countdown := u.countdown - d }, complete := false }, []) := by
  simp [Playback.stepLoopDelay, h]

theorem Playback.stepLoopDelay_exit (u : BaseTween) (d : Rat) (h : u.countdown - d ≤ 0) :
    Playback.stepLoopDelay u d =
      ({ unit := { u with countdown := 0, state := TweenState.ACTIVE,
                          listeners := listenersAfter u.listeners "onLoop" },
         complete := false },
        (BaseTween.fire { u with countdown := 0, state := TweenState.ACTIVE } "onLoop").trace) := by
  simp [Playback.stepLoopDelay, h, BaseTween.fire_eq]

theorem Playback.stepCompleteDelay_stay (u : BaseTween) (d : Rat)
    (h : ¬ u.countdown - d ≤ 0) :
    Playback.stepCompleteDelay u d =
      ({ unit := { u with countdown := u.countdown - d }, complete := false }, []) := by
  simp [Playback.stepCompleteDelay, h]

theorem Playback.stepCompleteDelay_exit (u : BaseTween) (d : Rat) (h : u.countdown - d ≤ 0) :
    Playback.stepCompleteDelay u d =
      ({ unit := { u with countdown := 0,
                          listeners := listenersAfter u.listeners "onComplete" },
         complete := true },
        (BaseTween.fire { u with countdown := 0 } "onComplete").trace) := by
  simp [Playback.stepCompleteDelay, h, BaseTween.fire_eq]

theorem Playback.tick_frozen (p : Playback) (delta : Rat)
    (h : p.complete = true ∨ p.unit.paused = true ∨ p.unit.timeScale = 0) :
    p.tick delta = (p, []) := by
  simp [Playback.tick, h]

theorem Playback.tick_active (p : Playback) (delta : Rat) (hc : p.complete = false)
    (hp : p.unit.paused = false) (ht : p.unit.timeScale ≠ 0)
    (hs : p.unit.state = TweenState.ACTIVE) :
    p.tick delta = Playback.stepActive p.unit (delta * p.unit.timeScale) := by
  simp [Playback.tick, hc, hp, ht, hs]

theorem Playback.tick_loopDelay (p : Playback) (delta : Rat) (hc : p.complete = false)
    (hp : p.unit.paused = false) (ht : p.unit.timeScale ≠ 0)
    (hs : p.unit.state = TweenState.LOOP_DELAY) :
    p.tick delta = Playback.stepLoopDelay p.unit (delta * p.unit.timeScale) := by
  simp [Playback.tick, hc, hp, ht, hs]

theorem Playback.tick_completeDelay (p : Playback) (delta : Rat) (hc : p.complete = false)
    (hp : p.unit.paused = false) (ht : p.unit.timeScale ≠ 0)
    (hs : p.unit.state = TweenState.COMPLETE_DELAY) :
    p.tick delta = Playback.stepCompleteDelay p.unit (delta * p.unit.timeScale) := by
  simp [Playback.tick, hc, hp, ht, hs]

theorem Playback.tick_playthrough_stay (ts delta : Rat) (p : Playback) (k : Nat)
    (hk : k = 0 ∨ k = 2 ∨ k = 4) (hts : ts ≠ 0) (h : p.inPhase ts k)
    (hd : ¬ p.unit.duration ≤ p.unit.elapsed + delta * ts) :
    (p.tick delta).1.inPhase ts k ∧ (p.tick delta).2 = [] ∧
      (p.tick delta).1.unit.elapsed = p.unit.elapsed + delta * ts ∧
      (p.tick delta).1.unit.duration = p.unit.duration := by
  obtain ⟨hp, ht, hsh⟩ := h
  have ht0 : p.unit.timeScale ≠ 0 := by rw [ht]; exact hts
  rcases hk with rfl | rfl | rfl <;>
  · simp only [Playback.shape, loopPhaseShape, Prod.mk.injEq] at hsh
    obtain ⟨hc, hst, hlc⟩ := hsh
    rw [p.tick_active delta hc hp ht0 hst, ht, Playback.stepActive_stay _ _ hd]
    refine ⟨⟨hp, ht, ?_⟩, rfl, rfl, rfl⟩
    simp [Playback.shape, loopPhaseShape, hst, hlc]

theorem Playback.tick_playthrough_exit (ts delta : Rat) (p : Playback) (k : Nat)
    (hk : k = 0 ∨ k = 2 ∨ k = 4) (hts : ts ≠ 0) (h : p.inPhase ts k)
    (hd : p.unit.duration ≤ p.unit.elapsed + delta * ts) :
    (p.tick delta).1.inPhase ts (k + 1) ∧ (p.tick delta).2 = [] := by
  obtain ⟨hp, ht, hsh⟩ := h
  have ht0 : p.unit.timeScale ≠ 0 := by rw [ht]; exact hts
  rcases hk with rfl | rfl | rfl
  · simp only [Playback.shape, loopPhaseShape, Prod.mk.injEq] at hsh
    obtain ⟨hc, hst, hlc⟩ := hsh
    have hl : p.unit.loopCounter ≠ 0 := by rw [hlc]; decide
    rw [p.tick_active delta hc hp ht0 hst, ht, Playback.stepActive_loop _ _ hd hl]
    refine ⟨⟨hp, ht, ?_⟩, rfl⟩
    simp [Playback.shape, loopPhaseShape, hlc]
  · simp only [Playback.shape, loopPhaseShape, Prod.mk.injEq] at hsh
    obtain ⟨hc, hst, hlc⟩ := hsh
    have hl : p.unit.loopCounter ≠ 0 := by rw [hlc]; decide
    rw [p.tick_active delta hc hp ht0 hst, ht, Playback.stepActive_loop _ _ hd hl]
    refine ⟨⟨hp, ht, ?_⟩, rfl⟩
    simp [Playback.shape, loopPhaseShape, hlc]
  · simp only [Playback.shape, loopPhaseShape, Prod.mk.injEq] at hsh
    obtain ⟨hc, hst, hlc⟩ := hsh
    rw [p.tick_active delta hc hp ht0 hst, ht, Playback.stepActive_done _ _ hd hlc]
    refine ⟨⟨hp, ht, ?_⟩, rfl⟩
    simp [Playback.shape, loopPhaseShape, hlc]

theorem Playback.tick_delay_stay (ts delta : Rat) (p : Playback) (k : Nat)
    (hk : k = 1 ∨ k = 3 ∨ k = 5) (hts : ts ≠ 0) (h : p.inPhase ts k)
    (hd : ¬ p.unit.countdown - delta * ts ≤ 0) :
    (p.tick delta).1.inPhase ts k ∧ (p.tick delta).2 = [] ∧
      (p.tick delta).1.unit.countdown = p.unit.countdown - delta * ts := by
  obtain ⟨hp, ht, hsh⟩ := h
  have ht0 : p.unit.timeScale ≠ 0 := by rw [ht]; exact hts
  rcases hk with rfl | rfl | rfl
  · simp only [Playback.shape, loopPhaseShape, Prod.mk.injEq] at hsh
    obtain ⟨hc, hst, hlc⟩ := hsh
    rw [p.tick_loopDelay delta hc hp ht0 hst, ht, Playback.stepLoopDelay_stay _ _ hd]
    refine ⟨⟨hp, ht, ?_⟩, rfl, rfl⟩
    simp [Playback.shape, loopPhaseShape, hst, hlc]
  · simp only [Playback.shape, loopPhaseShape, Prod.mk.injEq] at hsh
    obtain ⟨hc, hst, hlc⟩ := hsh
    rw [p.tick_loopDelay delta hc hp ht0 hst, ht, Playback.stepLoopDelay_stay _ _ hd]
    refine ⟨⟨hp, ht, ?_⟩, rfl, rfl⟩
    simp [Playback.shape, loopPhaseShape, hst, hlc]
  · simp only [Playback.shape, loopPhaseShape, Prod.mk.injEq] at hsh
    obtain ⟨hc, hst, hlc⟩ := hsh
    rw [p.tick_completeDelay delta hc hp ht0 hst, ht, Playback.stepCompleteDelay_stay _ _ hd]
    refine ⟨⟨hp, ht, ?_⟩, rfl, rfl⟩
    simp [Playback.shape, loopPhaseShape, hst, hlc]

theorem Playback.tick_delay_exit (ts delta : Rat) (p : Playback) (k : Nat)
    (hk : k = 1 ∨ k = 3 ∨ k = 5) (hts : ts ≠ 0) (h : p.inPhase ts k)
    (hd : p.unit.countdown - delta * ts ≤ 0) :
    (p.tick delta).1.inPhase ts (k + 1) ∧
      loopPhaseFired k ++ firedNames (p.tick delta).2 = loopPhaseFired (k + 1) := by
  obtain ⟨hp, ht, hsh⟩ := h
  have ht0 : p.unit.timeScale ≠ 0 := by rw [ht]; exact hts
  rcases hk with rfl | rfl | rfl
  · simp only [Playback.shape, loopPhaseShape, Prod.mk.injEq] at hsh
    obtain ⟨hc, hst, hlc⟩ := hsh
    rw [p.tick_loopDelay delta hc hp ht0 hst, ht, Playback.stepLoopDelay_exit _ _ hd]
    refine ⟨⟨hp, ht, ?_⟩, ?_⟩
    · simp [Playback.shape, loopPhaseShape, hlc]
    · simp only [BaseTween.firedNames_fire]
      rfl
  · simp only [Playback.shape, loopPhaseShape, Prod.mk.injEq] at hsh
    obtain ⟨hc, hst, hlc⟩ := hsh
    rw [p.tick_loopDelay delta hc hp ht0 hst, ht, Playback.stepLoopDelay_exit _ _ hd]
    refine ⟨⟨hp, ht, ?_⟩, ?_⟩
    · simp [Playback.shape, loopPhaseShape, hlc]
    · simp only [BaseTween.firedNames_fire]
      rfl
  · simp only [Playback.shape, loopPhaseShape, Prod.mk.injEq] at hsh
    obtain ⟨hc, hst, hlc⟩ := hsh
    rw [p.tick_completeDelay delta hc hp ht0 hst, ht, Playback.stepCompleteDelay_exit _ _ hd]
    refine ⟨⟨hp, ht, ?_⟩, ?_⟩
    · simp [Playback.shape, loopPhaseShape, hst, hlc]
    · simp only [BaseTween.firedNames_fire]
      rfl

theorem Playback.tick_inPhase (ts delta : Rat) (p : Playback) (k : Nat)
    (h : p.inPhase ts k) :
    ((p.tick delta).1.inPhase ts k ∧ firedNames (p.tick delta).2 = []) ∨
    (k < 6 ∧ (p.tick delta).1.inPhase ts (k + 1) ∧
      loopPhaseFired k ++ firedNames (p.tick delta).2 = loopPhaseFired (k + 1)) := by
  by_cases hts : ts = 0
  · left
    have hz : p.unit.timeScale = 0 := by rw [h.2.1]; exact hts
    rw [p.tick_frozen delta (Or.inr (Or.inr hz))]
    exact ⟨h, rfl⟩
  · match k, h with
    | 0, h =>
      by_cases hd : p.unit.duration ≤ p.unit.elapsed + delta * ts
      · obtain ⟨h1, h2⟩ := Playback.tick_playthrough_exit ts delta p 0 (Or.inl rfl) hts h hd
        exact Or.inr ⟨by decide, h1, by rw [h2]; rfl⟩
      · obtain ⟨h1, h2, _⟩ := Playback.tick_playthrough_stay ts delta p 0 (Or.inl rfl) hts h hd
        exact Or.inl ⟨h1, by rw [h2]; rfl⟩
    | 2, h =>
      by_cases hd : p.unit.duration ≤ p.unit.elapsed + delta * ts
      · obtain ⟨h1, h2⟩ :=
          Playback.tick_playthrough_exit ts delta p 2 (Or.inr (Or.inl rfl)) hts h hd
        exact Or.inr ⟨by decide, h1, by rw [h2]; rfl⟩
      · obtain ⟨h1, h2, _⟩ :=
          Playback.tick_playthrough_stay ts delta p 2 (Or.inr (Or.inl rfl)) hts h hd
        exact Or.inl ⟨h1, by rw [h2]; rfl⟩
    | 4, h =>
      by_cases hd : p.unit.duration ≤ p.unit.elapsed + delta * ts
      · obtain ⟨h1, h2⟩ :=
          Playback.tick_playthrough_exit ts delta p 4 (Or.inr (Or.inr rfl)) hts h hd
        exact Or.inr ⟨by decide, h1, by rw [h2]; rfl⟩
      · obtain ⟨h1, h2, _⟩ :=
          Playback.tick_playthrough_stay ts delta p 4 (Or.inr (Or.inr rfl)) hts h hd
        exact Or.inl ⟨h1, by rw [h2]; rfl⟩
    | 1, h =>
      by_cases hd : p.unit.countdown - delta * ts ≤ 0
      · obtain ⟨h1, h2⟩ := Playback.tick_delay_exit ts delta p 1 (Or.inl rfl) hts h hd
        exact Or.inr ⟨by decide, h1, h2⟩
      · obtain ⟨h1, h2, _⟩ := Playback.tick_delay_stay ts delta p 1 (Or.inl rfl) hts h hd
        exact Or.inl ⟨h1, by rw [h2]; rfl⟩
    | 3, h =>
      by_cases hd : p.unit.countdown - delta * ts ≤ 0
      · obtain ⟨h1, h2⟩ :=
          Playback.tick_delay_exit ts delta p 3 (Or.inr (Or.inl rfl)) hts h hd
        exact Or.inr ⟨by decide, h1, h2⟩
      · obtain ⟨h1, h2, _⟩ :=
          Playback.tick_delay_stay ts delta p 3 (Or.inr (Or.inl rfl)) hts h hd
        exact Or.inl ⟨h1, by rw [h2]; rfl⟩
    | 5, h =>
      by_cases hd : p.unit.countdown - delta * ts ≤ 0
      · obtain ⟨h1, h2⟩ :=
          Playback.tick_delay_exit ts delta p 5 (Or.inr (Or.inr rfl)) hts h hd
        exact Or.inr ⟨by decide, h1, h2⟩
      · obtain ⟨h1, h2, _⟩ :=
          Playback.tick_delay_stay ts delta p 5 (Or.inr (Or.inr rfl)) hts h hd
        exact Or.inl ⟨h1, by rw [h2]; rfl⟩
    | n + 6, h =>
      left
      have hc : p.complete = true := by
        have h3 := h.2.2
        simp only [Playback.shape, loopPhaseShape, Prod.mk.injEq] at h3
        exact h3.1
      rw [p.tick_frozen delta (Or.inl hc)]
      exact ⟨h, rfl⟩

theorem Playback.run_inPhase (ts : Rat) (ds : List Rat) :
    ∀ (p : Playback) (k : Nat), k ≤ 6 → p.inPhase ts k →
      ∃ k2, k ≤ k2 ∧ k2 ≤ 6 ∧ (Playback.run p ds).1.inPhase ts k2 ∧
        loopPhaseFired k ++ firedNames (Playback.run p ds).2 = loopPhaseFired k2 := by
  induction ds with
  | nil =>
    intro p k hk h
    exact ⟨k, le_refl k, hk, h, by simp [Playback.run_nil, firedNames]⟩
  | cons delta rest ih =>
    intro p k hk h
    rw [Playback.run_cons]
    rcases Playback.tick_inPhase ts delta p k h with ⟨h1, h2⟩ | ⟨hlt, h1, h2⟩
    · obtain ⟨k2, hle, hk2, h3, h4⟩ := ih _ k hk h1
      refine ⟨k2, hle, hk2, h3, ?_⟩
      show loopPhaseFired k
        ++ firedNames ((p.tick delta).2 ++ (Playback.run (p.tick delta).1 rest).2) = _
      rw [firedNames_append, h2, List.nil_append]
      exact h4
    · obtain ⟨k2, hle, hk2, h3, h4⟩ := ih _ (k + 1) hlt h1
      refine ⟨k2, Nat.le_of_succ_le hle, hk2, h3, ?_⟩
      show loopPhaseFired k
        ++ firedNames ((p.tick delta).2 ++ (Playback.run (p.tick delta).1 rest).2) = _
      rw [firedNames_append, ← List.append_assoc, h2]
      exact h4

theorem Playback.run_single (p : Playback) (delta : Rat) :
    (Playback.run p (List.replicate 1 delta)).1 = (p.tick delta).1 :=
  rfl

theorem Playback.run_replicate_succ (p : Playback) (delta : Rat) (n : Nat) :
    (Playback.run p (List.replicate (n + 1) delta)).1
      = (Playback.run (p.tick delta).1 (List.replicate n delta)).1 :=
  rfl

theorem Playback.playthrough_ends (ts delta : Rat) (k : Nat) (hk : k = 0 ∨ k = 2 ∨ k = 4)
    (hts : ts ≠ 0) (N : Nat) :
    ∀ p : Playback, p.inPhase ts k →
      p.unit.duration ≤ p.unit.elapsed + ((N : Rat) + 1) * (delta * ts) →
      ∃ n, (Playback.run p (List.replicate n delta)).1.inPhase ts (k + 1) := by
  induction N with
  | zero =>
    intro p h hd
    have hd1 : p.unit.duration ≤ p.unit.elapsed + delta * ts := by
      simpa using hd
    refine ⟨1, ?_⟩
    rw [Playback.run_single]
    exact (Playback.tick_playthrough_exit ts delta p k hk hts h hd1).1
  | succ N ih =>
    intro p h hd
    by_cases hd1 : p.unit.duration ≤ p.unit.elapsed + delta * ts
    · refine ⟨1, ?_⟩
      rw [Playback.run_single]
      exact (Playback.tick_playthrough_exit ts delta p k hk hts h hd1).1
    · obtain ⟨h1, _, h3, h4⟩ := Playback.tick_playthrough_stay ts delta p k hk hts h hd1
      have hd2 : (p.tick delta).1.unit.duration
          ≤ (p.tick delta).1.unit.elapsed + ((N : Rat) + 1) * (delta * ts) := by
        rw [h3, h4]
        push_cast at hd
        linarith
      obtain ⟨n, hn⟩ := ih _ h1 hd2
      refine ⟨n + 1, ?_⟩
      rw [Playback.run_replicate_succ]
      exact hn

theorem Playback.delay_ends (ts delta : Rat) (k : Nat) (hk : k = 1 ∨ k = 3 ∨ k = 5)
    (hts : ts ≠ 0) (N : Nat) :
    ∀ p : Playback, p.inPhase ts k →
      p.unit.countdown - ((N : Rat) + 1) * (delta * ts) ≤ 0 →
      ∃ n, (Playback.run p (List.replicate n delta)).1.inPhase ts (k + 1) := by
  induction N with
  | zero =>
    intro p h hd
    have hd1 : p.unit.countdown - delta * ts ≤ 0 := by
      simpa using hd
    refine ⟨1, ?_⟩
    rw [Playback.run_single]
    exact (Playback.tick_delay_exit ts delta p k hk hts h hd1).1
  | succ N ih =>
    intro p h hd
    by_cases hd1 : p.unit.countdown - delta * ts ≤ 0
    · refine ⟨1, ?_⟩
      rw [Playback.run_single]
      exact (Playback.tick_delay_exit ts delta p k hk hts h hd1).1
    · obtain ⟨h1, _, h3⟩ := Playback.tick_delay_stay ts delta p k hk hts h hd1
      have hd2 : (p.tick delta).1.unit.countdown - ((N : Rat) + 1) * (delta * ts) ≤ 0 := by
        rw [h3]
        push_cast at hd
        linarith
      obtain ⟨n, hn⟩ := ih _ h1 hd2
      refine ⟨n + 1, ?_⟩
      rw [Playback.run_replicate_succ]
      exact hn

theorem exists_nat_steps (x d : Rat) (hd : 0 < d) : ∃ N : Nat, x ≤ ((N : Rat) + 1) * d := by
  obtain ⟨N, hN⟩ := Archimedean.arch x hd
  refine ⟨N, ?_⟩
  rw [nsmul_eq_mul] at hN
  nlinarith

theorem Playback.phase_ends (ts delta : Rat) (hpos : 0 < delta * ts) (k : Nat) (hk : k < 6)
    (p : Playback) (h : p.inPhase ts k) :
    ∃ n, (Playback.run p (List.replicate n delta)).1.inPhase ts (k + 1) := by
  have hts : ts ≠ 0 := by
    intro h0
    rw [h0, mul_zero] at hpos
    exact lt_irrefl _ hpos
  have hcases : (k = 0 ∨ k = 2 ∨ k = 4) ∨ (k = 1 ∨ k = 3 ∨ k = 5) := by omega
  rcases hcases with hk1 | hk1
  · obtain ⟨N, hN⟩ := exists_nat_steps (p.unit.duration - p.unit.elapsed) (delta * ts) hpos
    exact Playback.playthrough_ends ts delta k hk1 hts N p h (by linarith)
  · obtain ⟨N, hN⟩ := exists_nat_steps p.unit.countdown (delta * ts) hpos
    exact Playback.delay_ends ts delta k hk1 hts N p h (by linarith)

theorem Playback.phases_end (ts delta : Rat) (hpos : 0 < delta * ts) (j : Nat) :
    ∀ (k : Nat) (p : Playback), k + j ≤ 6 → p.inPhase ts k →
      ∃ n, (Playback.run p (List.replicate n delta)).1.inPhase ts (k + j) := by
  induction j with
  | zero =>
    intro k p _ h
    exact ⟨0, h⟩
  | succ j ih =>
    intro k p hk h
    obtain ⟨n1, h1⟩ := ih k p (by omega) h
    obtain ⟨n2, h2⟩ := Playback.phase_ends ts delta hpos (k + j) (by omega) _ h1
    refine ⟨n1 + n2, ?_⟩
    rw [List.replicate_add, Playback.run_append]
    exact h2

theorem withoutDeliveries_append (a b : List Effect) :
    withoutDeliveries (a ++ b) = withoutDeliveries a ++ withoutDeliveries b := by
  unfold withoutDeliveries
  exact List.filter_append _ _

theorem withoutDeliveries_listenerTrace (ls : List Listener) (event : String)
    (args : List JsVal) : withoutDeliveries (listenerTrace ls event args) = [] := by
  unfold withoutDeliveries listenerTrace
  rw [List.filter_eq_nil_iff]
  intro e he
  obtain ⟨l, _, rfl⟩ := List.mem_map.mp he
  simp [Effect.isDeliver]

theorem withoutDeliveries_handlerTrace (cb : Option TweenCallback) :
    withoutDeliveries (handlerTrace cb) = handlerTrace cb := by
  cases cb <;> rfl

theorem BaseTween.withoutDeliveries_fire (u : BaseTween) (name : String) :
    withoutDeliveries (u.fire name).trace
      = Effect.emit name [JsVal.this] :: handlerTrace (u.handler name) := by
  rw [u.fire_eq]
  show withoutDeliveries ([Effect.emit name [JsVal.this]]
    ++ (listenerTrace u.listeners name [JsVal.this] ++ handlerTrace (u.handler name))) = _
  rw [withoutDeliveries_append, withoutDeliveries_append, withoutDeliveries_listenerTrace,
    withoutDeliveries_handlerTrace]
  rfl

theorem transitionTrace_append (u : BaseTween) (a b : List String) :
    transitionTrace u (a ++ b) = transitionTrace u a ++ transitionTrace u b := by
  induction a with
  | nil => rfl
  | cons n a ih =>
    show (Effect.emit n [JsVal.this] :: handlerTrace (u.handler n)) ++ transitionTrace u (a ++ b)
      = ((Effect.emit n [JsVal.this] :: handlerTrace (u.handler n)) ++ transitionTrace u a)
        ++ transitionTrace u b
    rw [ih, List.append_assoc]

theorem transitionTrace_single (u : BaseTween) (name : String) :
    transitionTrace u [name] = Effect.emit name [JsVal.this] :: handlerTrace (u.handler name) := by
  show (Effect.emit name [JsVal.this] :: handlerTrace (u.handler name)) ++ [] = _
  rw [List.append_nil]

theorem BaseTween.handler_congr (u v : BaseTween) (h : u.callbacks = v.callbacks)
    (name : String) : u.handler name = v.handler name := by
  unfold BaseTween.handler
  rw [h]

theorem loopPhaseFired_succ (k : Nat) (hk : k < 6) :
    loopPhaseFired (k + 1) = loopPhaseFired k ++ loopPhaseEvent k := by
  interval_cases k <;> rfl

theorem loopTimeBefore_succ (u : BaseTween) (m : Nat) :
    loopTimeBefore u (m + 1) = loopTimeBefore u m + loopPhaseLength u m :=
  rfl

theorem scaledTime_cons (ts delta : Rat) (ds : List Rat) :
    scaledTime ts (delta :: ds) = delta * ts + scaledTime ts ds := by
  simp [scaledTime]

theorem Playback.tick_step_playthrough (u0 : BaseTween) (ts delta : Rat) (p : Playback)
    (k : Nat) (hk : k = 0 ∨ k = 2 ∨ k = 4) (hts : ts ≠ 0) (h : p.inPhase ts k)
    (hs : p.Steady u0) :
    (p.tick delta).1.Steady u0 ∧
    ((¬ p.remaining ≤ delta * ts ∧ (p.tick delta).1.inPhase ts k ∧
        (p.tick delta).1.remaining = p.remaining - delta * ts ∧ (p.tick delta).2 = []) ∨
     (p.remaining ≤ delta * ts ∧ (p.tick delta).1.inPhase ts (k + 1) ∧
        (p.tick delta).1.remaining = loopPhaseLength u0 (k + 1) ∧
        withoutDeliveries (p.tick delta).2 = transitionTrace u0 (loopPhaseEvent k) ∧
        firedNames (p.tick delta).2 = loopPhaseEvent k)) := by
  obtain ⟨hp, ht, hsh⟩ := h
  obtain ⟨s1, s2, s3, s4, _⟩ := hs
  have ht0 : p.unit.timeScale ≠ 0 := by rw [ht]; exact hts
  rcases hk with rfl | rfl | rfl
  · simp only [Playback.shape, loopPhaseShape, Prod.mk.injEq] at hsh
    obtain ⟨hc, hst, hlc⟩ := hsh
    have hr : p.remaining = p.unit.duration - p.unit.elapsed := by
      simp [Playback.remaining, hc, hst]
    by_cases hd : p.unit.duration ≤ p.unit.elapsed + delta * ts
    · have hl : p.unit.loopCounter ≠ 0 := by rw [hlc]; decide
      rw [p.tick_active delta hc hp ht0 hst, ht, Playback.stepActive_loop _ _ hd hl]
      refine ⟨⟨s1, s2, s3, s4, fun _ => rfl⟩,
        Or.inr ⟨by rw [hr]; linarith, ⟨hp, ht, ?_⟩, ?_, rfl, rfl⟩⟩
      · simp [Playback.shape, loopPhaseShape, hlc]
      · simp [Playback.remaining, loopPhaseLength, s2]
    · rw [p.tick_active delta hc hp ht0 hst, ht, Playback.stepActive_stay _ _ hd]
      refine ⟨⟨s1, s2, s3, s4, ?_⟩,
        Or.inl ⟨by rw [hr]; intro hx; exact hd (by linarith), ⟨hp, ht, ?_⟩, ?_, rfl⟩⟩
      · intro hcon
        simp [hst] at hcon
      · simp [Playback.shape, loopPhaseShape, hst, hlc]
      · simp only [Playback.remaining, hc, hst]
        simp
        ring
  · simp only [Playback.shape, loopPhaseShape, Prod.mk.injEq] at hsh
    obtain ⟨hc, hst, hlc⟩ := hsh
    have hr : p.remaining = p.unit.duration - p.unit.elapsed := by
      simp [Playback.remaining, hc, hst]
    by_cases hd : p.unit.duration ≤ p.unit.elapsed + delta * ts
    · have hl : p.unit.loopCounter ≠ 0 := by rw [hlc]; decide
      rw [p.tick_active delta hc hp ht0 hst, ht, Playback.stepActive_loop _ _ hd hl]
      refine ⟨⟨s1, s2, s3, s4, fun _ => rfl⟩,
        Or.inr ⟨by rw [hr]; linarith, ⟨hp, ht, ?_⟩, ?_, rfl, rfl⟩⟩
      · simp [Playback.shape, loopPhaseShape, hlc]
      · simp [Playback.remaining, loopPhaseLength, s2]
    · rw [p.tick_active delta hc hp ht0 hst, ht, Playback.stepActive_stay _ _ hd]
      refine ⟨⟨s1, s2, s3, s4, ?_⟩,
        Or.inl ⟨by rw [hr]; intro hx; exact hd (by linarith), ⟨hp, ht, ?_⟩, ?_, rfl⟩⟩
      · intro hcon
        simp [hst] at hcon
      · simp [Playback.shape, loopPhaseShape, hst, hlc]
      · simp only [Playback.remaining, hc, hst]
        simp
        ring
  · simp only [Playback.shape, loopPhaseShape, Prod.mk.injEq] at hsh
    obtain ⟨hc, hst, hlc⟩ := hsh
    have hr : p.remaining = p.unit.duration - p.unit.elapsed := by
      simp [Playback.remaining, hc, hst]
    by_cases hd : p.unit.duration ≤ p.unit.elapsed + delta * ts
    · rw [p.tick_active delta hc hp ht0 hst, ht, Playback.stepActive_done _ _ hd hlc]
      refine ⟨⟨s1, s2, s3, s4, ?_⟩,
        Or.inr ⟨by rw [hr]; linarith, ⟨hp, ht, ?_⟩, ?_, rfl, rfl⟩⟩
      · intro hcon
        simp at hcon
      · simp [Playback.shape, loopPhaseShape, hlc]
      · simp [Playback.remaining, loopPhaseLength, s3]
    · rw [p.tick_active delta hc hp ht0 hst, ht, Playback.stepActive_stay _ _ hd]
      refine ⟨⟨s1, s2, s3, s4, ?_⟩,
        Or.inl ⟨by rw [hr]; intro hx; exact hd (by linarith), ⟨hp, ht, ?_⟩, ?_, rfl⟩⟩
      · intro hcon
        simp [hst] at hcon
      · simp [Playback.shape, loopPhaseShape, hst, hlc]
      · simp only [Playback.remaining, hc, hst]
        simp
        ring

theorem Playback.tick_step_delay (u0 : BaseTween) (ts delta : Rat) (p : Playback)
    (k : Nat) (hk : k = 1 ∨ k = 3 ∨ k = 5) (hts : ts ≠ 0) (h : p.inPhase ts k)
    (hs : p.Steady u0) :
    (p.tick delta).1.Steady u0 ∧
    ((¬ p.remaining ≤ delta * ts ∧ (p.tick delta).1.inPhase ts k ∧
        (p.tick delta).1.remaining = p.remaining - delta * ts ∧ (p.tick delta).2 = []) ∨
     (p.remaining ≤ delta * ts ∧ (p.tick delta).1.inPhase ts (k + 1) ∧
        (p.tick delta).1.remaining = loopPhaseLength u0 (k + 1) ∧
        withoutDeliveries (p.tick delta).2 = transitionTrace u0 (loopPhaseEvent k) ∧
        firedNames (p.tick delta).2 = loopPhaseEvent k)) := by
  obtain ⟨hp, ht, hsh⟩ := h
  obtain ⟨s1, s2, s3, s4, s5⟩ := hs
  have ht0 : p.unit.timeScale ≠ 0 := by rw [ht]; exact hts
  rcases hk with rfl | rfl | rfl
  · simp only [Playback.shape, loopPhaseShape, Prod.mk.injEq] at hsh
    obtain ⟨hc, hst, hlc⟩ := hsh
    have hr : p.remaining = p.unit.countdown := by
      simp [Playback.remaining, hc, hst]
    have he : p.unit.elapsed = 0 := s5 hst
    by_cases hd : p.unit.countdown - delta * ts ≤ 0
    · rw [p.tick_loopDelay delta hc hp ht0 hst, ht, Playback.stepLoopDelay_exit _ _ hd]
      refine ⟨⟨s1, s2, s3, s4, ?_⟩,
        Or.inr ⟨by rw [hr]; linarith, ⟨hp, ht, ?_⟩, ?_, ?_, ?_⟩⟩
      · intro hcon
        simp at hcon
      · simp [Playback.shape, loopPhaseShape, hlc]
      · simp [Playback.remaining, loopPhaseLength, s1, he]
      · have hh := BaseTween.handler_congr
          { p.unit with countdown := 0, state := TweenState.ACTIVE } u0 s4 "onLoop"
        rw [BaseTween.withoutDeliveries_fire, hh]
        exact (transitionTrace_single u0 "onLoop").symm
      · exact BaseTween.firedNames_fire _ _
    · rw [p.tick_loopDelay delta hc hp ht0 hst, ht, Playback.stepLoopDelay_stay _ _ hd]
      refine ⟨⟨s1, s2, s3, s4, s5⟩,
        Or.inl ⟨by rw [hr]; intro hx; exact hd (by linarith), ⟨hp, ht, ?_⟩, ?_, rfl⟩⟩
      · simp [Playback.shape, loopPhaseShape, hst, hlc]
      · simp [Playback.remaining, hc, hst]
  · simp only [Playback.shape, loopPhaseShape, Prod.mk.injEq] at hsh
    obtain ⟨hc, hst, hlc⟩ := hsh
    have hr : p.remaining = p.unit.countdown := by
      simp [Playback.remaining, hc, hst]
    have he : p.unit.elapsed = 0 := s5 hst
    by_cases hd : p.unit.countdown - delta * ts ≤ 0
    · rw [p.tick_loopDelay delta hc hp ht0 hst, ht, Playback.stepLoopDelay_exit _ _ hd]
      refine ⟨⟨s1, s2, s3, s4, ?_⟩,
        Or.inr ⟨by rw [hr]; linarith, ⟨hp, ht, ?_⟩, ?_, ?_, ?_⟩⟩
      · intro hcon
        simp at hcon
      · simp [Playback.shape, loopPhaseShape, hlc]
      · simp [Playback.remaining, loopPhaseLength, s1, he]
      · have hh := BaseTween.handler_congr
          { p.unit with countdown := 0, state := TweenState.ACTIVE } u0 s4 "onLoop"
        rw [BaseTween.withoutDeliveries_fire, hh]
        exact (transitionTrace_single u0 "onLoop").symm
      · exact BaseTween.firedNames_fire _ _
    · rw [p.tick_loopDelay delta hc hp ht0 hst, ht, Playback.stepLoopDelay_stay _ _ hd]
      refine ⟨⟨s1, s2, s3, s4, s5⟩,
        Or.inl ⟨by rw [hr]; intro hx; exact hd (by linarith), ⟨hp, ht, ?_⟩, ?_, rfl⟩⟩
      · simp [Playback.shape, loopPhaseShape, hst, hlc]
      · simp [Playback.remaining, hc, hst]
  · simp only [Playback.shape, loopPhaseShape, Prod.mk.injEq] at hsh
    obtain ⟨hc, hst, hlc⟩ := hsh
    have hr : p.remaining = p.unit.countdown := by
      simp [Playback.remaining, hc, hst]
    by_cases hd : p.unit.countdown - delta * ts ≤ 0
    · rw [p.tick_completeDelay delta hc hp ht0 hst, ht, Playback.stepCompleteDelay_exit _ _ hd]
      refine ⟨⟨s1, s2, s3, s4, ?_⟩,
        Or.inr ⟨by rw [hr]; linarith, ⟨hp, ht, ?_⟩, ?_, ?_, ?_⟩⟩
      · intro hcon
        simp [hst] at hcon
      · simp [Playback.shape, loopPhaseShape, hst, hlc]
      · simp [Playback.remaining, loopPhaseLength]
      · have hh := BaseTween.handler_congr { p.unit with countdown := 0 } u0 s4 "onComplete"
        rw [BaseTween.withoutDeliveries_fire, hh]
        exact (transitionTrace_single u0 "onComplete").symm
      · exact BaseTween.firedNames_fire _ _
    · rw [p.tick_completeDelay delta hc hp ht0 hst, ht, Playback.stepCompleteDelay_stay _ _ hd]
      refine ⟨⟨s1, s2, s3, s4, s5⟩,
        Or.inl ⟨by rw [hr]; intro hx; exact hd (by linarith), ⟨hp, ht, ?_⟩, ?_, rfl⟩⟩
      · simp [Playback.shape, loopPhaseShape, hst, hlc]
      · simp [Playback.remaining, hc, hst]

theorem Playback.tick_step (u0 : BaseTween) (ts delta : Rat) (p : Playback) (k : Nat)
    (hk : k < 6) (hts : ts ≠ 0) (h : p.inPhase ts k) (hs : p.Steady u0) :
    (p.tick delta).1.Steady u0 ∧
    ((¬ p.remaining ≤ delta * ts ∧ (p.tick delta).1.inPhase ts k ∧
        (p.tick delta).1.remaining = p.remaining - delta * ts ∧ (p.tick delta).2 = []) ∨
     (p.remaining ≤ delta * ts ∧ (p.tick delta).1.inPhase ts (k + 1) ∧
        (p.tick delta).1.remaining = loopPhaseLength u0 (k + 1) ∧
        withoutDeliveries (p.tick delta).2 = transitionTrace u0 (loopPhaseEvent k) ∧
        firedNames (p.tick delta).2 = loopPhaseEvent k)) := by
  have hcases : (k = 0 ∨ k = 2 ∨ k = 4) ∨ (k = 1 ∨ k = 3 ∨ k = 5) := by omega
  rcases hcases with hk1 | hk1
  · exact Playback.tick_step_playthrough u0 ts delta p k hk1 hts h hs
  · exact Playback.tick_step_delay u0 ts delta p k hk1 hts h hs

theorem loopTimeToPhase_stay (u0 : BaseTween) (m k : Nat) (r d : Rat) (hd : 0 ≤ d) :
    loopTimeToPhase u0 m k r ≤ loopTimeToPhase u0 m k (r - d) + d := by
  unfold loopTimeToPhase
  by_cases hm : m ≤ k
  · simp only [hm, if_true]
    linarith
  · simp only [hm, if_false]
    linarith

theorem loopTimeToPhase_exit (u0 : BaseTween) (m k : Nat) (r d : Rat) (hr : r ≤ d)
    (hd : 0 ≤ d) :
    loopTimeToPhase u0 m k r
      ≤ loopTimeToPhase u0 m (k + 1) (loopPhaseLength u0 (k + 1)) + d := by
  unfold loopTimeToPhase
  by_cases hm : m ≤ k
  · have hm1 : m ≤ k + 1 := Nat.le_succ_of_le hm
    simp only [hm, hm1, if_true]
    linarith
  · by_cases hm1 : m ≤ k + 1
    · have hmk : m = k + 1 := by omega
      simp only [hm, hm1, if_true, if_false]
      rw [hmk]
      linarith
    · simp only [hm, hm1, if_false]
      have hT : loopTimeBefore u0 (k + 1 + 1)
          = loopTimeBefore u0 (k + 1) + loopPhaseLength u0 (k + 1) := rfl
      rw [hT]
      linarith

theorem Playback.run_steps (u0 : BaseTween) (ts : Rat) (ds : List Rat) :
    ∀ (p : Playback) (k : Nat), k ≤ 6 → p.inPhase ts k → p.Steady u0 →
      ∃ k2, k ≤ k2 ∧ k2 ≤ 6 ∧ (Playback.run p ds).1.inPhase ts k2 ∧
        (Playback.run p ds).1.Steady u0 ∧
        loopPhaseFired k ++ firedNames (Playback.run p ds).2 = loopPhaseFired k2 ∧
        transitionTrace u0 (loopPhaseFired k) ++ withoutDeliveries (Playback.run p ds).2
          = transitionTrace u0 (loopPhaseFired k2) ∧
        ((∀ delta ∈ ds, 0 ≤ delta * ts) → ∀ m,
          loopTimeToPhase u0 m k p.remaining
            ≤ loopTimeToPhase u0 m k2 (Playback.run p ds).1.remaining + scaledTime ts ds) := by
  induction ds with
  | nil =>
    intro p k hk h hs
    refine ⟨k, le_refl k, hk, h, hs, ?_, ?_, ?_⟩
    · simp [Playback.run_nil, firedNames]
    · simp [Playback.run_nil, withoutDeliveries]
    · intro _ m
      simp [Playback.run_nil, scaledTime]
  | cons delta rest ih =>
    intro p k hk h hs
    rw [Playback.run_cons]
    have hfrozen : p.tick delta = (p, []) →
        ∃ k2, k ≤ k2 ∧ k2 ≤ 6 ∧ (Playback.run (p.tick delta).1 rest).1.inPhase ts k2 ∧
          (Playback.run (p.tick delta).1 rest).1.Steady u0 ∧
          loopPhaseFired k
              ++ firedNames ((p.tick delta).2 ++ (Playback.run (p.tick delta).1 rest).2)
            = loopPhaseFired k2 ∧
          transitionTrace u0 (loopPhaseFired k)
              ++ withoutDeliveries ((p.tick delta).2 ++ (Playback.run (p.tick delta).1 rest).2)
            = transitionTrace u0 (loopPhaseFired k2) ∧
          ((∀ d ∈ delta :: rest, 0 ≤ d * ts) → ∀ m,
            loopTimeToPhase u0 m k p.remaining
              ≤ loopTimeToPhase u0 m k2 (Playback.run (p.tick delta).1 rest).1.remaining
                + scaledTime ts (delta :: rest)) := by
      intro hf
      rw [hf]
      obtain ⟨k2, hle, hk2, h3, h4, h5, h6, h7⟩ := ih p k hk h hs
      refine ⟨k2, hle, hk2, h3, h4, ?_, ?_, ?_⟩
      · simpa using h5
      · simpa using h6
      · intro hnn m
        have hd : 0 ≤ delta * ts := hnn delta (List.mem_cons_self _ _)
        have hrest : ∀ d ∈ rest, 0 ≤ d * ts := fun d hd2 => hnn d (List.mem_cons_of_mem _ hd2)
        have := h7 hrest m
        rw [scaledTime_cons]
        linarith
    by_cases hts : ts = 0
    · have hz : p.unit.timeScale = 0 := by rw [h.2.1]; exact hts
      exact hfrozen (p.tick_frozen delta (Or.inr (Or.inr hz)))
    · by_cases hk6 : k < 6
      · obtain ⟨hs1, hstep⟩ := Playback.tick_step u0 ts delta p k hk6 hts h hs
        rcases hstep with ⟨hnr, h1, hrem, htr⟩ | ⟨hr, h1, hrem, htr, hfn⟩
        · obtain ⟨k2, hle, hk2, h3, h4, h5, h6, h7⟩ := ih _ k hk h1 hs1
          refine ⟨k2, hle, hk2, h3, h4, ?_, ?_, ?_⟩
          · rw [htr, List.nil_append]
            exact h5
          · rw [htr, List.nil_append]
            exact h6
          · intro hnn m
            have hd : 0 ≤ delta * ts := hnn delta (List.mem_cons_self _ _)
            have hrest : ∀ d ∈ rest, 0 ≤ d * ts :=
              fun d hd2 => hnn d (List.mem_cons_of_mem _ hd2)
            have h8 := h7 hrest m
            rw [hrem] at h8
            have h9 := loopTimeToPhase_stay u0 m k p.remaining (delta * ts) hd
            rw [scaledTime_cons]
            linarith
        · obtain ⟨k2, hle, hk2, h3, h4, h5, h6, h7⟩ := ih _ (k + 1) hk6 h1 hs1
          refine ⟨k2, Nat.le_of_succ_le hle, hk2, h3, h4, ?_, ?_, ?_⟩
          · rw [firedNames_append, ← List.append_assoc, hfn, ← loopPhaseFired_succ k hk6]
            exact h5
          · rw [withoutDeliveries_append, ← List.append_assoc, htr, ← transitionTrace_append,
              ← loopPhaseFired_succ k hk6]
            exact h6
          · intro hnn m
            have hd : 0 ≤ delta * ts := hnn delta (List.mem_cons_self _ _)
            have hrest : ∀ d ∈ rest, 0 ≤ d * ts :=
              fun d hd2 => hnn d (List.mem_cons_of_mem _ hd2)
            have h8 := h7 hrest m
            rw [hrem] at h8
            have h9 := loopTimeToPhase_exit u0 m k p.remaining (delta * ts) hr hd
            rw [scaledTime_cons]
            linarith
      · have hk6e : k = 6 := by omega
        have hc : p.complete = true := by
          have h3 := h.2.2
          rw [hk6e] at h3
          simp only [Playback.shape, loopPhaseShape, Prod.mk.injEq] at h3
          exact h3.1
        exact hfrozen (p.tick_frozen delta (Or.inl hc))

theorem handlerCalls_withoutDeliveries (tr : List Effect) :
    handlerCalls (withoutDeliveries tr) = handlerCalls tr := by
  unfold handlerCalls withoutDeliveries
  rw [List.filter_filter]
  congr 1
  funext e
  cases e <;> rfl

theorem handlerCalls_transitionTrace_cons (u : BaseTween) (name : String)
    (rest : List String) :
    handlerCalls (transitionTrace u (name :: rest))
      = handlerTrace (u.handler name) ++ handlerCalls (transitionTrace u rest) := by
  show handlerCalls ((Effect.emit name [JsVal.this] :: handlerTrace (u.handler name))
    ++ transitionTrace u rest) = _
  unfold handlerCalls
  rw [List.filter_append, List.filter_cons_of_neg (by simp [Effect.isApply])]
  have h := handlerCalls_handlerTrace (u.handler name)
  unfold handlerCalls at h
  rw [h]

theorem loopTimeToPhase_start (u : BaseTween) (m : Nat) :
    loopTimeToPhase u m 0 u.duration = loopTimeBefore u m := by
  unfold loopTimeToPhase
  cases m with
  | zero => rfl
  | succ m =>
    have h1 : ¬ m + 1 ≤ 0 := by omega
    have hT : loopTimeBefore u (0 + 1) = 0 + u.duration := rfl
    simp only [h1, if_false, hT]
    ring

theorem loopTimeToPhase_reached (u : BaseTween) (m k : Nat) (r : Rat) (h : m ≤ k) :
    loopTimeToPhase u m k r = 0 := by
  unfold loopTimeToPhase
  simp [h]

theorem Playback.start_inPhase (u : BaseTween) (hs : u.state = TweenState.ACTIVE)
    (hp : u.paused = false) (hl : u.loop = 2) (hc : u.loopCounter = u.loop) :
    Playback.inPhase u.timeScale { unit := u, complete := false } 0 := by
  refine ⟨hp, rfl, ?_⟩
  simp [Playback.shape, loopPhaseShape, hs, hc, hl]

theorem Playback.reached (u : BaseTween) (hs : u.state = TweenState.ACTIVE)
    (hp : u.paused = false) (hl : u.loop = 2) (hc : u.loopCounter = u.loop)
    (he : u.elapsed = 0) (ds : List Rat) :
    ∃ k, k ≤ 6 ∧
      (Playback.run { unit := u, complete := false } ds).1.inPhase u.timeScale k ∧
      (Playback.run { unit := u, complete := false } ds).1.Steady u ∧
      firedNames (Playback.run { unit := u, complete := false } ds).2 = loopPhaseFired k ∧
      withoutDeliveries (Playback.run { unit := u, complete := false } ds).2
        = transitionTrace u (loopPhaseFired k) ∧
      ((∀ delta ∈ ds, 0 ≤ delta * u.timeScale) → ∀ m, m ≤ k →
        loopTimeBefore u m ≤ scaledTime u.timeScale ds) := by
  have h0 := Playback.start_inPhase u hs hp hl hc
  have hs0 : Playback.Steady u { unit := u, complete := false } :=
    ⟨rfl, rfl, rfl, rfl, fun _ => he⟩
  obtain ⟨k, _, hk, h1, h2, h3, h4, h5⟩ :=
    Playback.run_steps u u.timeScale ds _ 0 (by decide) h0 hs0
  refine ⟨k, hk, h1, h2, by simpa [loopPhaseFired] using h3, ?_, ?_⟩
  · simpa [loopPhaseFired, transitionTrace] using h4
  · intro hnn m hm
    have h6 := h5 hnn m
    have hr : Playback.remaining { unit := u, complete := false } = u.duration := by
      simp [Playback.remaining, hs, he]
    rw [hr, loopTimeToPhase_start, loopTimeToPhase_reached u m k _ hm] at h6
    linarith

theorem loopPhase_complete (k : Nat) (hk : k ≤ 6) (h : (loopPhaseShape k).1 = true) :
    k = 6 := by
  interval_cases k <;> simp [loopPhaseShape] at h ⊢

theorem loopPhase_fired_complete (k : Nat) (hk : k ≤ 6)
    (h : "onComplete" ∈ loopPhaseFired k) : k = 6 := by
  interval_cases k <;> simp [loopPhaseFired] at h ⊢

theorem loopPhase_completeDelay (k : Nat) (hk : k ≤ 6)
    (h : (loopPhaseShape k).2.1 = TweenState.COMPLETE_DELAY) : k = 5 ∨ k = 6 := by
  interval_cases k <;> simp [loopPhaseShape] at h ⊢

theorem loopPhase_count (k : Nat) (hk : k ≤ 6) : (loopPhaseFired k).count "onLoop" ≤ 2 := by
  interval_cases k <;> decide

theorem loopPhase_fired_loop (k : Nat) (hk : k ≤ 6) (h : "onLoop" ∈ loopPhaseFired k) :
    2 ≤ k := by
  interval_cases k <;> simp [loopPhaseFired] at h ⊢

theorem loopPhase_fired_twice (k : Nat) (hk : k ≤ 6)
    (h : (loopPhaseFired k).count "onLoop" = 2) : 4 ≤ k := by
  interval_cases k <;> simp [loopPhaseFired] at h ⊢

/-- C19, on the stepping modelled from section 4.4 of the specification. A unit starts its
run in ACTIVE, unpaused, with `elapsed` zero, `loop = 2` and as many loops remaining.
Whatever ticks it is fed, it is in one of seven phases (playthrough, loop delay, playthrough,
loop delay, playthrough, completion delay, complete); it has emitted exactly the events of
that phase, each followed by the invocation of the handler registered under its name; and,
when no tick runs time backwards, the scaled time fed so far covers every phase it has left.
So `onLoop` fires at most twice; `onComplete` fires only on completion, after two `onLoop`
and not before three durations, two loop delays and the completion delay have been fed; the
completion delay is entered only after three durations and two loop delays. A tick takes
the unit out of a phase exactly when its scaled delta covers what remains of the phase (the
rest of the playthrough, or of the countdown) and then arms the next phase with its full
length; otherwise what remains shrinks by the scaled delta. With ticks of a positive scaled
delta the run does complete. -/
theorem loop_accounting (u : BaseTween) (hs : u.state = TweenState.ACTIVE)
    (hp : u.paused = false) (hl : u.loop = 2) (hc : u.loopCounter = u.loop)
    (he : u.elapsed = 0) :
    (∀ ds : List Rat, ∃ k, k ≤ 6 ∧
      (Playback.run { unit := u, complete := false } ds).1.shape = loopPhaseShape k ∧
      firedNames (Playback.run { unit := u, complete := false } ds).2 = loopPhaseFired k ∧
      withoutDeliveries (Playback.run { unit := u, complete := false } ds).2
        = transitionTrace u (loopPhaseFired k) ∧
      ((∀ delta ∈ ds, 0 ≤ delta * u.timeScale) → ∀ m, m ≤ k →
        loopTimeBefore u m ≤ scaledTime u.timeScale ds)) ∧
    (∀ ds : List Rat,
      (Playback.run { unit := u, complete := false } ds).1.complete = true →
      firedNames (Playback.run { unit := u, complete := false } ds).2
        = ["onLoop", "onLoop", "onComplete"] ∧
      withoutDeliveries (Playback.run { unit := u, complete := false } ds).2
        = (Effect.emit "onLoop" [JsVal.this] :: handlerTrace (u.handler "onLoop"))
          ++ ((Effect.emit "onLoop" [JsVal.this] :: handlerTrace (u.handler "onLoop"))
          ++ (Effect.emit "onComplete" [JsVal.this]
                :: handlerTrace (u.handler "onComplete"))) ∧
      handlerCalls (Playback.run { unit := u, complete := false } ds).2
        = handlerTrace (u.handler "onLoop")
          ++ (handlerTrace (u.handler "onLoop") ++ handlerTrace (u.handler "onComplete"))) ∧
    (∀ ds : List Rat,
      (firedNames (Playback.run { unit := u, complete := false } ds).2).count "onLoop" ≤ 2) ∧
    (∀ ds : List Rat,
      "onComplete" ∈ firedNames (Playback.run { unit := u, complete := false } ds).2 →
      (Playback.run { unit := u, complete := false } ds).1.complete = true ∧
      firedNames (Playback.run { unit := u, complete := false } ds).2
        = ["onLoop", "onLoop", "onComplete"] ∧
      ((∀ delta ∈ ds, 0 ≤ delta * u.timeScale) →
        3 * u.duration + 2 * u.loopDelay + u.completeDelay ≤ scaledTime u.timeScale ds)) ∧
    (∀ ds : List Rat,
      (Playback.run { unit := u, complete := false } ds).1.unit.state
        = TweenState.COMPLETE_DELAY →
      (firedNames (Playback.run { unit := u, complete := false } ds).2).take 2
        = ["onLoop", "onLoop"] ∧
      ((∀ delta ∈ ds, 0 ≤ delta * u.timeScale) →
        3 * u.duration + 2 * u.loopDelay ≤ scaledTime u.timeScale ds)) ∧
    (∀ ds : List Rat, (∀ delta ∈ ds, 0 ≤ delta * u.timeScale) →
      ("onLoop" ∈ firedNames (Playback.run { unit := u, complete := false } ds).2 →
        u.duration + u.loopDelay ≤ scaledTime u.timeScale ds) ∧
      ((firedNames (Playback.run { unit := u, complete := false } ds).2).count "onLoop" = 2 →
        2 * u.duration + 2 * u.loopDelay ≤ scaledTime u.timeScale ds)) ∧
    (∀ (ds : List Rat) (delta : Rat) (k : Nat), k < 6 → u.timeScale ≠ 0 →
      (Playback.run { unit := u, complete := false } ds).1.shape = loopPhaseShape k →
      ((Playback.run { unit := u, complete := false } ds).1.remaining ≤ delta * u.timeScale →
        (Playback.run { unit := u, complete := false } (ds ++ [delta])).1.shape
          = loopPhaseShape (k + 1) ∧
        (Playback.run { unit := u, complete := false } (ds ++ [delta])).1.remaining
          = loopPhaseLength u (k + 1)) ∧
      (¬ (Playback.run { unit := u, complete := false } ds).1.remaining
          ≤ delta * u.timeScale →
        (Playback.run { unit := u, complete := false } (ds ++ [delta])).1.shape
          = loopPhaseShape k ∧
        (Playback.run { unit := u, complete := false } (ds ++ [delta])).1.remaining
          = (Playback.run { unit := u, complete := false } ds).1.remaining
            - delta * u.timeScale)) ∧
    (∀ (ds : List Rat) (delta : Rat) (k : Nat),
      (Playback.run { unit := u, complete := false } ds).1.shape = loopPhaseShape k →
      (Playback.run { unit := u, complete := false } (ds ++ [delta])).1.shape
          = loopPhaseShape k ∨
        (Playback.run { unit := u, complete := false } (ds ++ [delta])).1.shape
          = loopPhaseShape (k + 1)) ∧
    (∀ delta : Rat, 0 < delta * u.timeScale →
      ∃ n, (Playback.run { unit := u, complete := false } (List.replicate n delta)).1.complete
          = true ∧
        firedNames (Playback.run { unit := u, complete := false } (List.replicate n delta)).2
          = ["onLoop", "onLoop", "onComplete"]) := by
  have hrun := Playback.reached u hs hp hl hc he
  have hT2 : loopTimeBefore u 2 = 0 + u.duration + u.loopDelay := rfl
  have hT4 : loopTimeBefore u 4 = 0 + u.duration + u.loopDelay + u.duration + u.loopDelay :=
    rfl
  have hT5 : loopTimeBefore u 5
      = 0 + u.duration + u.loopDelay + u.duration + u.loopDelay + u.duration := rfl
  have hT6 : loopTimeBefore u 6
      = 0 + u.duration + u.loopDelay + u.duration + u.loopDelay + u.duration
        + u.completeDelay := rfl
  have hdone : ∀ ds : List Rat,
      (Playback.run { unit := u, complete := false } ds).1.complete = true →
      firedNames (Playback.run { unit := u, complete := false } ds).2
        = ["onLoop", "onLoop", "onComplete"] := by
    intro ds hcomp
    obtain ⟨k, hk, h1, _, h2, _, _⟩ := hrun ds
    have h3 : (loopPhaseShape k).1 = true := by
      rw [← h1.2.2]
      exact hcomp
    have hk6 := loopPhase_complete k hk h3
    subst hk6
    exact h2
  refine ⟨?_, ?_, ?_, ?_, ?_, ?_, ?_, ?_, ?_⟩
  · intro ds
    obtain ⟨k, hk, h1, _, h2, h3, h4⟩ := hrun ds
    exact ⟨k, hk, h1.2.2, h2, h3, h4⟩
  · intro ds hcomp
    obtain ⟨k, hk, h1, _, h2, h3, _⟩ := hrun ds
    have h5 : (loopPhaseShape k).1 = true := by
      rw [← h1.2.2]
      exact hcomp
    have hk6 := loopPhase_complete k hk h5
    subst hk6
    refine ⟨h2, ?_, ?_⟩
    · rw [h3]
      show transitionTrace u ["onLoop", "onLoop", "onComplete"] = _
      simp [transitionTrace]
    · rw [← handlerCalls_withoutDeliveries, h3]
      show handlerCalls (transitionTrace u ["onLoop", "onLoop", "onComplete"]) = _
      rw [handlerCalls_transitionTrace_cons, handlerCalls_transitionTrace_cons,
        handlerCalls_transitionTrace_cons]
      show _ ++ (_ ++ (_ ++ handlerCalls [])) = _
      simp [handlerCalls]
  · intro ds
    obtain ⟨k, hk, _, _, h2, _, _⟩ := hrun ds
    rw [h2]
    exact loopPhase_count k hk
  · intro ds hmem
    obtain ⟨k, hk, h1, _, h2, _, h4⟩ := hrun ds
    rw [h2] at hmem
    have hk6 := loopPhase_fired_complete k hk hmem
    subst hk6
    have hcomp : (Playback.run { unit := u, complete := false } ds).1.complete = true := by
      have h3 := h1.2.2
      simp only [Playback.shape, loopPhaseShape, Prod.mk.injEq] at h3
      exact h3.1
    refine ⟨hcomp, h2, ?_⟩
    intro hnn
    have h5 := h4 hnn 6 (le_refl 6)
    rw [hT6] at h5
    linarith
  · intro ds hst
    obtain ⟨k, hk, h1, _, h2, _, h4⟩ := hrun ds
    have h3 : (loopPhaseShape k).2.1 = TweenState.COMPLETE_DELAY := by
      rw [← h1.2.2]
      exact hst
    have hk5 := loopPhase_completeDelay k hk h3
    refine ⟨?_, ?_⟩
    · rw [h2]
      rcases hk5 with rfl | rfl <;> rfl
    · intro hnn
      have h5 := h4 hnn 5 (by omega)
      rw [hT5] at h5
      linarith
  · intro ds hnn
    obtain ⟨k, hk, _, _, h2, _, h4⟩ := hrun ds
    constructor
    · intro hmem
      rw [h2] at hmem
      have h5 := h4 hnn 2 (loopPhase_fired_loop k hk hmem)
      rw [hT2] at h5
      linarith
    · intro hcount
      rw [h2] at hcount
      have h5 := h4 hnn 4 (loopPhase_fired_twice k hk hcount)
      rw [hT4] at h5
      linarith
  · intro ds delta k hk6 hts hsh
    obtain ⟨k2, _, h1, h2, _, _, _⟩ := hrun ds
    have hin : (Playback.run { unit := u, complete := false } ds).1.inPhase u.timeScale k :=
      ⟨h1.1, h1.2.1, hsh⟩
    have hlast : (Playback.run { unit := u, complete := false } (ds ++ [delta])).1
        = ((Playback.run { unit := u, complete := false } ds).1.tick delta).1 := by
      rw [Playback.run_append]
      rfl
    rw [hlast]
    obtain ⟨_, hstep⟩ := Playback.tick_step u u.timeScale delta _ k hk6 hts hin h2
    rcases hstep with ⟨hnr, h3, hrem, _⟩ | ⟨hr, h3, hrem, _, _⟩
    · exact ⟨fun hx => absurd hx hnr, fun _ => ⟨h3.2.2, hrem⟩⟩
    · exact ⟨fun _ => ⟨h3.2.2, hrem⟩, fun hx => absurd hr hx⟩
  · intro ds delta k hsh
    obtain ⟨k2, _, h1, _, _, _, _⟩ := hrun ds
    have hin : (Playback.run { unit := u, complete := false } ds).1.inPhase u.timeScale k :=
      ⟨h1.1, h1.2.1, hsh⟩
    have hlast : (Playback.run { unit := u, complete := false } (ds ++ [delta])).1
        = ((Playback.run { unit := u, complete := false } ds).1.tick delta).1 := by
      rw [Playback.run_append]
      rfl
    rw [hlast]
    rcases Playback.tick_inPhase u.timeScale delta _ k hin with ⟨h3, _⟩ | ⟨_, h3, _⟩
    · exact Or.inl h3.2.2
    · exact Or.inr h3.2.2
  · intro delta hpos
    have h0 := Playback.start_inPhase u hs hp hl hc
    obtain ⟨n, hn⟩ := Playback.phases_end u.timeScale delta hpos 6 0 _ (by decide) h0
    have hcomp : (Playback.run { unit := u, complete := false }
        (List.replicate n delta)).1.complete = true := by
      have h3 := hn.2.2
      simp only [Playback.shape, loopPhaseShape, Prod.mk.injEq] at h3
      exact h3.1
    exact ⟨n, hcomp, hdone _ hcomp⟩

/-- Witness for C19 on the unit of the scenario of section 8 with two loops, fed ticks of
250. -/
theorem loop_accounting_witness :
    sampleLoopUnit.state = TweenState.ACTIVE ∧ sampleLoopUnit.paused = false ∧
      sampleLoopUnit.loop = 2 ∧ sampleLoopUnit.loopCounter = sampleLoopUnit.loop ∧
      sampleLoopUnit.elapsed = 0 ∧
      ∃ n, (Playback.run { unit := sampleLoopUnit, complete := false }
              (List.replicate n 250)).1.complete = true ∧
        firedNames (Playback.run { unit := sampleLoopUnit, complete := false }
              (List.replicate n 250)).2 = ["onLoop", "onLoop", "onComplete"] :=
  ⟨rfl, rfl, rfl, rfl, rfl,
    (loop_accounting sampleLoopUnit rfl rfl rfl rfl rfl).2.2.2.2.2.2.2.2 250 (by
      show (0 : Rat) < 250 * 1
      norm_num)⟩
